import Mathlib

/-!
Verification of the cross-listing core against its specification.

The Python source (`standalone_crosslisting_tool.py`, `app.py`) is shallowly
embedded below: text is `List Char`, remote calls become explicit response
environments, and each branch of the orchestration code is translated
faithfully.  All definitions are executable so concrete scenarios evaluate by
`decide` / `rfl`.
-/

set_option maxRecDepth 4096

abbrev LC := List Char

/-- Character list of a string literal. -/
def lstr (s : String) : LC := s.data

/-- ASCII digit test (models the regex class `\d` on the ASCII inputs used). -/
def isDigitC (c : Char) : Bool := 48 ≤ c.toNat && c.toNat ≤ 57

/-- ASCII upper-case letter test (regex class `[A-Z]`). -/
def isUpAlphaC (c : Char) : Bool := 65 ≤ c.toNat && c.toNat ≤ 90

/-- Regex class `[0-9A-Z]`. -/
def isAlnumUC (c : Char) : Bool := isDigitC c || isUpAlphaC c

/-- ASCII lower-case letter test. -/
def isLoAlphaC (c : Char) : Bool := 97 ≤ c.toNat && c.toNat ≤ 122

/-- Regex class `[A-Za-z0-9]`. -/
def isAlnumC (c : Char) : Bool := isDigitC c || isUpAlphaC c || isLoAlphaC c

/-- Python whitespace (`str.strip`, regex `\s`) restricted to ASCII. -/
def isPySpace (c : Char) : Bool :=
  c == ' ' || c == '\t' || c == '\n' || c == '\x0d' || c == '\x0b' || c == '\x0c'

/-- Regex class `[A-Za-z0-9._-]` from `is_sandbox_course_name`. -/
def isIdentC (c : Char) : Bool := isAlnumC c || c == '.' || c == '_' || c == '-'

/-- Python `str.upper()` on the ASCII alphabet. -/
def upperLC (s : LC) : LC := s.map Char.toUpper

/-- Python `str.strip()` (ASCII whitespace). -/
def stripLC (s : LC) : LC :=
  ((s.dropWhile isPySpace).reverse.dropWhile isPySpace).reverse

/-- Decimal rendering of a natural, as Python `str(int)` renders the ids here. -/
def natLC (n : Nat) : LC := (Nat.repr n).data

/-- Python `str` of an optional id: `None` or its decimal digits. -/
def optLC (o : Option Nat) : LC :=
  match o with
  | none => lstr "None"
  | some n => natLC n

/-- Boolean prefix test on character lists. -/
def isPre : LC → LC → Bool
  | [], _ => true
  | _ :: _, [] => false
  | a :: as, x :: xs => a == x && isPre as xs

/-- Index of the leftmost occurrence of `p` in `xs` (Python `str.find` when
some, `-1` becomes `none`).  Scans positions left to right. -/
def firstOcc (p : LC) : LC → Option Nat
  | [] => if isPre p [] then some 0 else none
  | x :: xs => if isPre p (x :: xs) then some 0 else (firstOcc p xs).map (· + 1)

/-- Python substring membership `p in xs`. -/
def occursB (p xs : LC) : Bool := (firstOcc p xs).isSome

/-- Code-point order on character lists: Python string `<=`. -/
def lexLe : LC → LC → Bool
  | [], _ => true
  | _ :: _, [] => false
  | a :: as, b :: bs =>
      if a.toNat < b.toNat then true
      else if b.toNat < a.toNat then false
      else lexLe as bs

/-- Insert into a `le`-sorted list (stable: equal keys keep the earlier first). -/
def insertBy (le : α → α → Bool) (x : α) : List α → List α
  | [] => [x]
  | y :: ys => if le x y then x :: y :: ys else y :: insertBy le x ys

/-- Insertion sort by a boolean order; models Python `sorted`. -/
def insSortBy (le : α → α → Bool) : List α → List α
  | [] => []
  | x :: xs => insertBy le x (insSortBy le xs)

/-- Drop later duplicates, keeping first occurrences. -/
def dedupKeepFirst [DecidableEq α] : List α → List α
  | [] => []
  | x :: xs => x :: (dedupKeepFirst xs).filter (· ≠ x)

/-- Python `sorted({...})` over strings: deduplicate then sort ascending. -/
def sortedSetLC (l : List LC) : List LC := insSortBy lexLe (dedupKeepFirst l)

/-- Python `sorted({...})` over ints. -/
def sortedSetN (l : List Nat) : List Nat :=
  insSortBy (fun a b => decide (a ≤ b)) (dedupKeepFirst l)

/-- Python `sep.join(xs)`. -/
def intercalateLC (sep : LC) : List LC → LC
  | [] => []
  | [x] => x
  | x :: y :: ys => x ++ sep ++ intercalateLC sep (y :: ys)

/-- Truthiness of an optional string (`if s:` in Python). -/
def optTruthyLC (o : Option LC) : Bool :=
  match o with
  | none => false
  | some l => l ≠ []

/-! ## Course-code and name parsing (`standalone_crosslisting_tool.py`) -/

/-- One attempt of the search `[A-Z]*[- ]?([0-9]+[A-Z]?)` at a fixed position.
The greedy `[A-Z]*` run is exact: backtracking it cannot help, because the
following character would then be a letter, which matches neither `[- ]` nor a
digit.  Returns the captured group when the pattern matches here. -/
def tryNumAt (cs : LC) : Option LC :=
  let rest := cs.dropWhile isUpAlphaC
  let afterSep :=
    match rest with
    | c :: tl => if c == '-' || c == ' ' then (if (tl.takeWhile isDigitC) ≠ [] then tl else rest) else rest
    | [] => rest
  let ds := afterSep.takeWhile isDigitC
  if ds = [] then none
  else
    let tail0 := afterSep.drop ds.length
    match tail0 with
    | c :: _ => if isUpAlphaC c then some (ds ++ [c]) else some ds
    | [] => some ds

/-- Leftmost-match scan for `tryNumAt` (Python `re.search`). -/
def scanNum : LC → Option LC
  | [] => tryNumAt []
  | c :: cs =>
      match tryNumAt (c :: cs) with
      | some g => some g
      | none => scanNum cs

/-- `extract_course_number`: search `[A-Z]*[- ]?([0-9]+[A-Z]?)` in the
upper-cased code; on a match return group 1, otherwise the code unchanged. -/
def extract_course_number (course_code : LC) : LC :=
  if course_code = [] then []
  else
    match scanNum (upperLC course_code) with
    | some g => g
    | none => course_code

/-- `is_sandbox_course_name`: `re.match` of
`^Sandbox Course \d+ for [A-Za-z0-9._-]+` (ASCII model).  The greedy `\d+`
needs no backtracking since a digit matches neither the space of `" for "`
nor ends the required literal. -/
def sandboxMatch (cs : LC) : Bool :=
  if isPre (lstr "Sandbox Course ") cs then
    let r := cs.drop (lstr "Sandbox Course ").length
    let ds := r.takeWhile isDigitC
    if ds ≠ [] then
      let r2 := r.drop ds.length
      if isPre (lstr " for ") r2 then
        ((r2.drop (lstr " for ").length).takeWhile isIdentC) ≠ []
      else false
    else false
  else false

/-- `is_sandbox_course_name` with Python falsiness of a missing/empty name. -/
def is_sandbox_course_name (course_name : Option LC) : Bool :=
  match course_name with
  | none => false
  | some cs => if cs = [] then false else sandboxMatch cs

/-- Core of `_extract_section_suffix._extract_from_text`.  The two regex
searches `[^0-9A-Z]([0-9A-Z]{1,5})$` and `([0-9A-Z]{1,5})$` reduce to: take
the maximal trailing `[0-9A-Z]` run; no run means no match; otherwise the
result is its last `min run 5` characters (the first pattern fires when the
run is 1–5 characters and shorter than the whole string, the anchored
fallback otherwise). -/
def extractFromText (t : LC) : Option LC :=
  let u := stripLC (upperLC t)
  let run := (u.reverse.takeWhile isAlnumUC).reverse
  if run = [] then none
  else some (run.drop (run.length - min run.length 5))

/-- `_extract_section_suffix`: prefer the SIS section id, fall back to the
section name, empty string when neither yields a suffix. -/
def extract_section_suffix (sis_section_id section_name : Option LC) : LC :=
  let s1 : Option LC :=
    if optTruthyLC sis_section_id then extractFromText (sis_section_id.getD []) else none
  match s1 with
  | some s => if s ≠ [] then s else
      (if optTruthyLC section_name then (extractFromText (section_name.getD [])).getD [] else [])
  | none =>
      (if optTruthyLC section_name then (extractFromText (section_name.getD [])).getD [] else [])

/-- `re.fullmatch(r'[0-9A-Z]{1,5}', s)`. -/
def fullAlnum15 (s : LC) : Bool := s ≠ [] && s.length ≤ 5 && s.all isAlnumUC

/-- `_build_option_c_course_name`: strip a trailing section suffix from the
base course code, then compose `prefix-<parent>/<children>: <existing name>`.
Child suffixes are upper-cased, deduplicated as a set, the parent's own
suffix removed, and sorted. -/
def build_option_c_course_name (base_course_code existing_course_name parent_primary_suffix : LC)
    (child_suffixes : List LC) : LC :=
  let prefix0 := base_course_code
  let prefixC :=
    if '-' ∈ prefix0 then
      let rev := prefix0.reverse
      let maybeSuffix := (rev.takeWhile (· ≠ '-')).reverse
      let maybePrefix := ((rev.dropWhile (· ≠ '-')).drop 1).reverse
      if fullAlnum15 (upperLC maybeSuffix) then maybePrefix else prefix0
    else prefix0
  let psU := upperLC parent_primary_suffix
  let parts0 : List LC := if parent_primary_suffix ≠ [] then [psU] else []
  let childList := (child_suffixes.filter (· ≠ [])).map upperLC
  let childSorted := sortedSetLC (childList.filter (· ≠ psU))
  let parts := parts0 ++ childSorted
  let codePart := if parts ≠ [] then prefixC ++ '-' :: intercalateLC (lstr "/") parts else prefixC
  if codePart ≠ [] then codePart ++ lstr ": " ++ existing_course_name else existing_course_name

/-! ## Syllabus block rewriting (`apply_post_crosslist_updates`) -/

/-- The opening marker `<!-- CROSSLIST_CHILDREN -->`. -/
def SM : LC := lstr "<!-- CROSSLIST_CHILDREN -->"

/-- The closing marker `<!-- END_CROSSLIST_CHILDREN -->`. -/
def EM : LC := lstr "<!-- END_CROSSLIST_CHILDREN -->"

/-- The header inserted before a fresh block. -/
def hdrC : LC := lstr "<hr>\n<h3>Cross-listed Child Courses</h3>\n"

/-- One `<li>` line of `_build_children_html_list`. -/
def itemL (p : LC × LC) : LC :=
  lstr "  <li>Child Course – " ++ p.1 ++ lstr ": " ++ p.2 ++ lstr "</li>"

/-- Interior of the marker-delimited block. -/
def midC (children : List (LC × LC)) : LC :=
  lstr "\n<ul>\n" ++ intercalateLC (lstr "\n") (children.map itemL) ++ lstr "\n</ul>\n"

/-- `_build_children_html_list`: markers around the `<ul>` list. -/
def build_children_html_list (children : List (LC × LC)) : LC :=
  SM ++ midC children ++ EM

/-- Regex match of `<!--\s*CROSSLIST_PRIMARY_SUFFIX:\s*([0-9A-Z]{1,5})\s*-->`
at one position.  The greedy `\s*` runs and the capture run are exact because
their character classes are disjoint from the literals that follow. -/
def psAt (cs : LC) : Option LC :=
  if isPre (lstr "<!--") cs then
    let r1 := (cs.drop 4).dropWhile isPySpace
    if isPre (lstr "CROSSLIST_PRIMARY_SUFFIX:") r1 then
      let r2 := (r1.drop (lstr "CROSSLIST_PRIMARY_SUFFIX:").length).dropWhile isPySpace
      let run := r2.takeWhile isAlnumUC
      if run ≠ [] && run.length ≤ 5 then
        if isPre (lstr "-->") ((r2.drop run.length).dropWhile isPySpace) then some run else none
      else none
    else none
  else none

/-- Leftmost `re.search` for the stored primary-suffix marker. -/
def findPS : LC → Option LC
  | [] => psAt []
  | c :: cs =>
      match psAt (c :: cs) with
      | some g => some g
      | none => findPS cs

/-- Leftmost match of `<!-- CROSSLIST_CHILDREN -->[\s\S]*?<!-- END_... -->`:
start of the first opening marker that still has a closing marker after it,
with the lazy middle ending at the first such closing marker.  Returns start
index and match length. -/
def findM (xs : LC) : Option (Nat × Nat) :=
  match firstOcc SM xs with
  | none => none
  | some i =>
      match firstOcc EM (xs.drop (i + SM.length)) with
      | none => none
      | some j => some (i, SM.length + j + EM.length)

/-- `re.sub` of the marker-block pattern by `b`, fuel-structured so that the
kernel can evaluate it; matches are non-overlapping and scanning resumes
after each replacement, as in Python. -/
def subF (b : LC) : Nat → LC → LC
  | 0, xs => xs
  | fuel + 1, xs =>
      match findM xs with
      | none => xs
      | some (i, l) => xs.take i ++ b ++ subF b fuel (xs.drop (i + l))

/-- `pattern.sub(b, xs)`: the list length always bounds the match count. -/
def subAll (b xs : LC) : LC := subF b xs.length xs

/-- Separator chosen before appending a fresh block
(`"\n\n" if current and not current.endswith("\n") else "\n"`). -/
def sepOf (cur : LC) : LC :=
  if cur ≠ [] && !(cur.getLast? == some '\n') then lstr "\n\n" else lstr "\n"

/-- Stored-suffix marker line prepended when first appending
(`f"<!-- CROSSLIST_PRIMARY_SUFFIX: {s} -->\n"` when the suffix is truthy). -/
def pmOf (suffix : LC) : LC :=
  if suffix ≠ [] then lstr "<!-- CROSSLIST_PRIMARY_SUFFIX: " ++ suffix ++ lstr " -->\n" else []

/-- Lines 1431–1446 of `apply_post_crosslist_updates`: replace the block
between the markers when both occur in the syllabus, else append separator,
primary-suffix marker, header and block.  Returns the resulting body and the
`syllabus_updated` flag (no `PUT` is issued when the body is unchanged). -/
def syllabusStepBody (cur suffix : LC) (children : List (LC × LC)) : LC × Bool :=
  let blockB := build_children_html_list children
  if occursB SM cur && occursB EM cur then
    let ns := subAll blockB cur
    if ns ≠ cur then (ns, true) else (cur, false)
  else
    (cur ++ sepOf cur ++ pmOf suffix ++ hdrC ++ blockB, true)

/-! ## Data model -/

/-- Policy configuration (`CanvasConfig`), defaults as in the dataclass. -/
structure Config where
  per_page : Nat := 100
  max_retries : Nat := 3
  require_parent_unpublished : Bool := true
  forbid_parent_with_students : Bool := true
  enforce_same_subaccount : Bool := false
  enforce_same_term : Bool := true
  default_override_sis_stickiness : Bool := true

/-- A Canvas section payload as used by the orchestrator, updater and
normalizer (`course_id` is the current owner, `nonxlist_course_id` the
origin course when cross-listed). -/
structure SectionRec where
  id : Option Nat := none
  name : Option LC := none
  course_id : Option Nat := none
  nonxlist_course_id : Option Nat := none
  sis_section_id : Option LC := none
deriving DecidableEq

/-- A Canvas course payload; `teachers` keeps the optional `id` of each
teacher dict. `sections` carries the nested payload for the normalizer. -/
structure CourseRec where
  id : Option Nat := none
  name : Option LC := none
  course_code : Option LC := none
  workflow_state : Option LC := none
  published : Bool := false
  total_students : Option Nat := none
  enrollment_term_id : Option Nat := none
  teachers : List (Option Nat) := []
  syllabus_body : Option LC := none
  sections : List SectionRec := []
deriving DecidableEq

/-- Truthy teacher ids (`{t.get('id') for t in ts if ... t.get('id')}`). -/
def teacherIds (ts : List (Option Nat)) : List Nat :=
  (ts.filterMap id).filter (· ≠ 0)

/-- `set.isdisjoint`. -/
def disjN (a b : List Nat) : Bool := a.all (fun x => decide (x ∉ b))

/-- Python `course.get('workflow_state') == 'available' or bool(course.get('published'))`. -/
def isPublishedCourse (c : CourseRec) : Bool :=
  c.workflow_state == some (lstr "available") || c.published

/-! ## Validation rule engine (`validate_cross_listing_candidates`) -/

/-- The section-format candidate records fed to validation (parent courses
are normalized into this shape by the callers). -/
structure VSection where
  cross_listed : Bool := false
  course_id : Option Nat := none
  published : Bool := false
  total_students : Nat := 0
  course_code : LC := []
  enrollment_term_id : Option Nat := none
  subaccount_id : Option Nat := none
  teachers : List (Option Nat) := []

/-- `validate_cross_listing_candidates` (standalone tool, lines 1017–1077).
Note: the source returns one flat list of blocking error strings; the
teacher-mismatch check appends to that same list. -/
def validate_cross_listing_candidates (cfg : Config) (p c : VSection) : List LC :=
  let e1 := if p.cross_listed then [lstr "Parent section is already cross-listed"] else []
  let e2 := if c.cross_listed then [lstr "Child section is already cross-listed"] else []
  let e3 := if p.course_id = c.course_id then [lstr "Cannot cross-list sections from the same course"] else []
  let e4 := if cfg.require_parent_unpublished && p.published then [lstr "Parent must be unpublished"] else []
  let e5 := if cfg.forbid_parent_with_students && decide (0 < p.total_students) && p.published then
      [lstr "Parent is published and has student activity"] else []
  let e6 := if !c.published then [lstr "Child course must be published"] else []
  let pn := extract_course_number p.course_code
  let cn := extract_course_number c.course_code
  let e7 := if pn ≠ [] && cn ≠ [] && pn ≠ cn then
      [lstr "Course numbers don\x27t match: " ++ pn ++ lstr " vs " ++ cn] else []
  let e8 := if cfg.enforce_same_term && p.enrollment_term_id.isSome && c.enrollment_term_id.isSome
      && p.enrollment_term_id ≠ c.enrollment_term_id then
      [lstr "Parent and child must be in the same enrollment term"] else []
  let e9 := if cfg.enforce_same_subaccount && p.subaccount_id ≠ c.subaccount_id then
      [lstr "Subaccounts don\x27t match: " ++ optLC p.subaccount_id ++ lstr " vs " ++ optLC c.subaccount_id] else []
  let pt := teacherIds p.teachers
  let ct := teacherIds c.teachers
  let e10 := if pt ≠ [] && ct ≠ [] && disjN pt ct then
      [lstr "Teachers must match between parent and child courses"] else []
  e1 ++ e2 ++ e3 ++ e4 ++ e5 ++ e6 ++ e7 ++ e8 ++ e9 ++ e10

/-! ## Audit records and orchestrator (`cross_list_section`, `un_cross_list_section`) -/

/-- One audit record as produced by `log_audit_action` (actor/term/instructor
pass-through columns are orthogonal to every claim and omitted). -/
structure AuditRec where
  action : LC
  parent_course_id : Option Nat
  child_section_id : Option Nat
  result : LC
  dry_run : Bool
  message : LC
  new_parent_course_title : Option LC := none
  child_section_ids : List (Option Nat) := []
  syllabus_updated : Option Bool := none
  sandbox_mode : Option Bool := none
  sop_warnings : Option (List LC) := none

/-- Result dictionary of `apply_post_crosslist_updates` as consumed by
`cross_list_section`. -/
structure UpdRes where
  new_course_name : LC := []
  child_section_ids : List (Option Nat) := []
  syllabus_updated : Bool := false

/-- Remote responses consumed by one `cross_list_section` call: the pre-state
fetches, the mutating `POST` outcome, the post-state section fetch, and the
outcome of the (separately embedded) content updater, `none` modelling the
updater raising. `courses` is a function of the course id, so refetching the
same id observes the same snapshot. -/
structure CLEnv where
  sections : Nat → Except LC SectionRec
  courses : Option Nat → Except LC CourseRec
  postResp : Except LC Unit
  postSections : Nat → Except LC SectionRec
  updates : Option UpdRes

/-- Observable outcome of `cross_list_section`: the returned boolean, the
audit records written, whether the mutating `POST .../crosslist/...` was
issued, and whether the content updater was invoked. -/
structure CLOut where
  ok : Bool
  audits : List AuditRec
  posted : Bool
  updaterRan : Bool

/-- `cross_list_section` (standalone tool, lines 1128–1291), branch for
branch: pre-fetch guard, parent/child course fetch with term gate (sandbox
names downgrade the mismatch to a warning), idempotent no-op, already-merged
guard, dry run, mutation, post-verification with content updates.
`sandbox_mode` is always defined at the `NameError` fallbacks, so only the
primary `log_audit_action` calls are reachable. -/
def cross_list_section (cfg : Config) (env : CLEnv) (child_section_id parent_course_id : Nat)
    (dry_run : Bool) : CLOut :=
  let act := lstr "cross_list"
  match env.sections child_section_id with
  | .error e =>
      ⟨false, [⟨act, some parent_course_id, some child_section_id, lstr "error", dry_run,
        lstr "Failed to fetch section before cross-list: " ++ e, none, [], none, none, none⟩], false, false⟩
  | .ok s =>
    let cc := s.course_id
    let oc := s.nonxlist_course_id
    match env.courses (some parent_course_id) with
    | .error e =>
        ⟨false, [⟨act, some parent_course_id, some child_section_id, lstr "error", dry_run,
          lstr "Failed to fetch course details for term check: " ++ e, none, [], none, none, none⟩], false, false⟩
    | .ok pCourse =>
      match env.courses cc with
      | .error e =>
          ⟨false, [⟨act, some parent_course_id, some child_section_id, lstr "error", dry_run,
            lstr "Failed to fetch course details for term check: " ++ e, none, [], none, none, none⟩], false, false⟩
      | .ok cCourse =>
        let pTerm := pCourse.enrollment_term_id
        let cTerm := cCourse.enrollment_term_id
        let sandbox := is_sandbox_course_name pCourse.name || is_sandbox_course_name cCourse.name
        let termMismatch := cfg.enforce_same_term && pTerm.isSome && cTerm.isSome && pTerm ≠ cTerm
        if termMismatch && !sandbox then
          ⟨false, [⟨act, some parent_course_id, some child_section_id, lstr "error", dry_run,
            lstr "Term mismatch: parent course term " ++ optLC pTerm ++
            lstr " vs child course term " ++ optLC cTerm ++
            lstr ". Cross-listing blocked.", none, [], none, some false, none⟩], false, false⟩
        else
          let w1 := if termMismatch && sandbox then
              [lstr "Warning: Term mismatch (parent term " ++ optLC pTerm ++
               lstr " vs child term " ++ optLC cTerm ++ lstr ")"] else []
          let w2 := if (cfg.require_parent_unpublished || cfg.forbid_parent_with_students)
              && isPublishedCourse pCourse && decide (0 < pCourse.total_students.getD 0) && sandbox then
              [lstr "Warning: Parent is published and has student activity (sandbox mode)"] else []
          let w3 := if !isPublishedCourse cCourse && sandbox then
              [lstr "Warning: Child course is not published (sandbox mode)"] else []
          let pT := teacherIds pCourse.teachers
          let cT := teacherIds cCourse.teachers
          let w4 := if pT ≠ [] && cT ≠ [] && disjN pT cT && sandbox then
              [lstr "Warning: Teachers do not match between parent and child (sandbox mode)"] else []
          let warns := w1 ++ w2 ++ w3 ++ w4
          if cc == some parent_course_id then
            ⟨true, [⟨act, some parent_course_id, some child_section_id, lstr "success", dry_run,
              lstr "Section " ++ natLC child_section_id ++ lstr " already belongs to course " ++
              natLC parent_course_id ++ lstr " (no-op)", none, [], none, none, none⟩], false, false⟩
          else if oc.isSome && oc ≠ cc then
            ⟨false, [⟨act, some parent_course_id, some child_section_id, lstr "error", dry_run,
              lstr "Section " ++ natLC child_section_id ++
              lstr " is already cross-listed (original course " ++ optLC oc ++
              lstr ", current " ++ optLC cc ++ lstr ").", none, [], none, none, none⟩], false, false⟩
          else if dry_run then
            ⟨true, [⟨act, some parent_course_id, some child_section_id, lstr "success", true,
              lstr "DRY RUN: Would cross-list section " ++ natLC child_section_id ++
              lstr " into course " ++ natLC parent_course_id, none, [], none,
              some sandbox, some warns⟩], false, false⟩
          else
            match env.postResp with
            | .error e =>
                ⟨false, [⟨act, some parent_course_id, some child_section_id, lstr "error", false,
                  lstr "Failed to cross-list section: " ++ e, none, [], none,
                  some sandbox, some warns⟩], true, false⟩
            | .ok _ =>
              match env.postSections child_section_id with
              | .error e =>
                  ⟨false, [⟨act, some parent_course_id, some child_section_id, lstr "error", false,
                    lstr "Failed to cross-list section: " ++ e, none, [], none,
                    some sandbox, some warns⟩], true, false⟩
              | .ok post =>
                if post.course_id == some parent_course_id then
                  let baseMsg := lstr "Successfully cross-listed section " ++
                    natLC child_section_id ++ lstr " into course " ++ natLC parent_course_id
                  match env.updates with
                  | none =>
                      ⟨true, [⟨act, some parent_course_id, some child_section_id, lstr "success",
                        false, baseMsg, none, [], some false, some sandbox, some warns⟩], true, true⟩
                  | some u =>
                      let msg := if u.new_course_name ≠ [] then
                          baseMsg ++ lstr "; new course name: " ++ u.new_course_name else baseMsg
                      ⟨true, [⟨act, some parent_course_id, some child_section_id, lstr "success",
                        false, msg, some u.new_course_name, u.child_section_ids,
                        some u.syllabus_updated, some sandbox, some warns⟩], true, true⟩
                else
                  ⟨false, [⟨act, some parent_course_id, some child_section_id, lstr "error", false,
                    lstr "Post-verification failed: section " ++ natLC child_section_id ++
                    lstr " course_id is " ++ optLC post.course_id ++ lstr " not " ++
                    natLC parent_course_id, none, [], none, some sandbox, some warns⟩], true, false⟩

/-- Remote responses consumed by one `un_cross_list_section` call. -/
structure UnEnv where
  sections : Nat → Except LC SectionRec
  delResp : Except LC Unit
  postSections : Nat → Except LC SectionRec

/-- Observable outcome of `un_cross_list_section`; `deleted` records whether
the mutating `DELETE .../crosslist` was issued. -/
structure UnOut where
  ok : Bool
  audits : List AuditRec
  deleted : Bool

/-- `un_cross_list_section` (standalone tool, lines 1481–1541). -/
def un_cross_list_section (env : UnEnv) (section_id : Nat) (dry_run : Bool) : UnOut :=
  let act := lstr "un_cross_list"
  match env.sections section_id with
  | .error e =>
      ⟨false, [⟨act, none, some section_id, lstr "error", dry_run,
        lstr "Failed to fetch section before un-cross-list: " ++ e, none, [], none, none, none⟩], false⟩
  | .ok s =>
    let preCourse := s.course_id
    let preNonx := s.nonxlist_course_id
    if preNonx = none then
      ⟨true, [⟨act, none, some section_id, lstr "success", dry_run,
        lstr "Section " ++ natLC section_id ++ lstr " is not cross-listed (no-op)", none, [], none, none, none⟩], false⟩
    else if dry_run then
      ⟨true, [⟨act, none, some section_id, lstr "success", true,
        lstr "DRY RUN: Would un-cross-list section " ++ natLC section_id, none, [], none, none, none⟩], false⟩
    else
      match env.delResp with
      | .error e =>
          ⟨false, [⟨act, none, some section_id, lstr "error", false,
            lstr "Failed to un-cross-list section: " ++ e, none, [], none, none, none⟩], true⟩
      | .ok _ =>
        match env.postSections section_id with
        | .error e =>
            ⟨false, [⟨act, none, some section_id, lstr "error", false,
              lstr "Failed to un-cross-list section: " ++ e, none, [], none, none, none⟩], true⟩
        | .ok post =>
          if (preNonx ≠ none && post.course_id == preNonx) || post.course_id != preCourse then
            ⟨true, [⟨act, none, some section_id, lstr "success", false,
              lstr "Successfully un-cross-listed section " ++ natLC section_id, none, [], none, none, none⟩], true⟩
          else
            ⟨false, [⟨act, none, some section_id, lstr "error", false,
              lstr "Post-verification failed: section " ++ natLC section_id ++
              lstr " course_id is " ++ optLC post.course_id ++
              lstr " (expected revert to " ++ optLC preNonx ++
              lstr " or change from " ++ optLC preCourse ++ lstr ")", none, [], none, none, none⟩], true⟩

/-! ## Post-crosslist content updater (`apply_post_crosslist_updates`) -/

/-- Output of the updater: the composed parent title, the merged-in section
ids, the update flags and the resulting syllabus body. -/
structure UpdOut where
  new_course_name : LC
  child_section_ids : List (Option Nat)
  syllabus_updated : Bool
  newSyllabus : LC
  namePut : Bool

/-- First element of the parent-candidate sections sorted by `id or 0`
(Python's stable sort keeps the earliest section on ties). -/
def pickPrimary : List SectionRec → Option SectionRec
  | [] => none
  | x :: xs => some (xs.foldl (fun b s => if (s.id.getD 0) < (b.id.getD 0) then s else b) x)

/-- `apply_post_crosslist_updates` (standalone tool, lines 1358–1452) over
its fetched inputs: the parent course snapshot, the parent's current section
list, and a lookup resolving an origin course id to its `(course_code, name)`
(`none` models the per-course `CanvasAPIError` that the loop skips). -/
def apply_post_crosslist_updates (parent_course : CourseRec) (sections : List SectionRec)
    (lookup : Nat → Option (LC × LC)) (primary_parent_suffix : Option LC)
    (parent_course_id : Nat) : UpdOut :=
  let pName := parent_course.name.getD []
  let pCode := parent_course.course_code.getD []
  let cur := parent_course.syllabus_body.getD []
  let stored := findPS cur
  let parentCands := sections.filter
    (fun s => s.nonxlist_course_id = none || s.nonxlist_course_id = some parent_course_id)
  let childSecs := sections.filter
    (fun s => !(s.nonxlist_course_id = none || s.nonxlist_course_id = some parent_course_id))
  let childIds := childSecs.map (·.id)
  let originIds := (childSecs.filterMap (·.nonxlist_course_id)).filter (· ≠ 0)
  let pps0 := match stored with
    | some s => s
    | none => match primary_parent_suffix with
      | some s => if s ≠ [] then upperLC s else []
      | none => []
  let pps := if pps0 = [] then
      match pickPrimary parentCands with
      | some prim => upperLC (extract_section_suffix prim.sis_section_id prim.name)
      | none => pps0
    else pps0
  let childSuffixes := childSecs.map (fun s => extract_section_suffix s.sis_section_id s.name)
  let newName := build_option_c_course_name pCode pName pps childSuffixes
  let namePut := newName ≠ [] && newName ≠ pName
  let childrenDisplay := (sortedSetN (originIds.filter (· ≠ 0))).filterMap lookup
  let step := syllabusStepBody cur pps childrenDisplay
  ⟨newName, childIds, step.2, step.1, namePut⟩

/-! ## Course/section normalizer (`app.py`, `build_course_artifacts_json`) -/

/-- Effective current course of a section under the course being iterated
(`if section_course_id is None: section_course_id = course_id`). -/
def sectionEffCourse (s : SectionRec) (cid : Option Nat) : Option Nat :=
  match s.course_id with
  | none => cid
  | some x => some x

/-- The source's "belongs here" test (app.py lines 721–725): not cross-listed
at all, or currently owned by this course.  Note the code does not test
whether the origin course equals the course being iterated, although its own
comment (lines 707–711) says it should. -/
def sectionBelongsHere (s : SectionRec) (cid : Option Nat) : Bool :=
  s.nonxlist_course_id = none || sectionEffCourse s cid = cid

/-- The first-pass orphan test: every section fails `sectionBelongsHere`. -/
def allSectionsElsewhere (secs : List SectionRec) (cid : Option Nat) : Bool :=
  secs.all (fun s => !sectionBelongsHere s cid)

/-- Modelled from the spec: the claim's "belongs elsewhere" predicate — a
non-null original-course identifier equal to the course being iterated whose
current course differs.  Stated only for comparison with the source's
`sectionBelongsHere`. -/
def belongsElsewhereSpec (s : SectionRec) (cid : Option Nat) : Bool :=
  s.nonxlist_course_id ≠ none && s.nonxlist_course_id = cid && sectionEffCourse s cid ≠ cid

/-- Section artifact emitted by the normalizer. -/
structure SecArt where
  id : Option Nat
  course_id : Option Nat
  cross_listed : Bool
  nonxlist_course_id : Option Nat
deriving DecidableEq

/-- Course artifact emitted by the normalizer (name/code/state pass-through
columns omitted; they are copied verbatim from the course). -/
structure CourseArt where
  course_id : Option Nat
  sections : List SecArt
deriving DecidableEq

/-- Per-course section pass: global dedup by section id, keep only sections
whose effective current course is this course, flag cross-listing. -/
def procSections (cid : Option Nat) (seenS : List (Option Nat)) :
    List SectionRec → List SecArt × List (Option Nat)
  | [] => ([], seenS)
  | s :: rest =>
    if s.id ∈ seenS then procSections cid seenS rest
    else
      let eff := sectionEffCourse s cid
      if eff ≠ cid then procSections cid seenS rest
      else
        let art : SecArt := ⟨s.id, eff,
          s.nonxlist_course_id ≠ none && s.nonxlist_course_id ≠ eff, s.nonxlist_course_id⟩
        let res := procSections cid (seenS ++ [s.id]) rest
        (art :: res.1, res.2)

/-- First pass over courses: dedup by course id, drop section-less and
orphaned courses, collect section artifacts. -/
def procCourses (seenC : List (Option Nat)) (seenS : List (Option Nat)) :
    List CourseRec → List CourseArt
  | [] => []
  | c :: rest =>
    if c.id ∈ seenC then procCourses seenC seenS rest
    else
      let seenC2 := seenC ++ [c.id]
      if c.sections = [] then procCourses seenC2 seenS rest
      else if allSectionsElsewhere c.sections c.id then procCourses seenC2 seenS rest
      else
        let res := procSections c.id seenS c.sections
        ⟨c.id, res.1⟩ :: procCourses seenC2 res.2 rest

/-- `build_course_artifacts_json` (app.py lines 668–817): both passes; the
second pass drops artifacts left with no sections. -/
def build_course_artifacts_json (courses : List CourseRec) : List CourseArt :=
  (procCourses [] [] courses).filter (fun a => a.sections ≠ [])

/-! ## Resilient pagination (`get_paginated_data`, lines 357–448) -/

/-- An item of a page: its optional `id` (`item.get('id', 0)` defaults the
missing id to `0` when hashing). -/
abbrev PItem := Option Nat

/-- A page response: the parsed data list, or a `CanvasAPIError` carrying an
optional HTTP status. -/
abbrev PageResp := Except (Option Nat) (List PItem)

/-- `hash(str(sorted([item.get('id', 0) ...])))`, modelled injectively as the
sorted id list itself (with multiplicity — the source sorts a list, it does
not build a set). -/
def sortIdsP (data : List PItem) : List Nat :=
  insSortBy (fun a b => decide (a ≤ b)) (data.map (fun i => i.getD 0))

/-- Output of pagination: the merged items and the `(page, attempt)` request
log in issue order. -/
structure PagOut where
  items : List PItem
  reqs : List (Nat × Nat)
deriving DecidableEq

/-- Result of the inner attempt loop: either a `return` from the function or
fall-through to the next `while` iteration with updated state. -/
inductive InnerRes where
  | ret (out : PagOut)
  | cont (page : Nat) (acc : List PItem) (seen : List (List Nat)) (ce : Nat)
      (reqs : List (Nat × Nat))

/-- The `for attempt in range(max_retries)` body.  On success: empty page and
repeated sorted-id list return immediately; a short page returns after
extending; otherwise `page += 1; break`.  On error: status 401 returns
immediately; the final attempt returns (both `consecutive_errors` branches
return); otherwise retry the same page. -/
def attemptsLoop (server : Nat → Nat → PageResp) (perPage maxRetries page : Nat) :
    Nat → Nat → List PItem → List (List Nat) → Nat → List (Nat × Nat) → InnerRes
  | 0, _, acc, seen, ce, reqs => .cont page acc seen ce reqs
  | k + 1, attempt, acc, seen, ce, reqs =>
    let reqs2 := reqs ++ [(page, attempt)]
    match server page attempt with
    | .ok data =>
        if data = [] then .ret ⟨acc, reqs2⟩
        else if sortIdsP data ∈ seen then .ret ⟨acc, reqs2⟩
        else if data.length < perPage then .ret ⟨acc ++ data, reqs2⟩
        else .cont (page + 1) (acc ++ data) (seen ++ [sortIdsP data]) 0 reqs2
    | .error st =>
        if st = some 401 then .ret ⟨acc, reqs2⟩
        else if attempt = maxRetries - 1 then .ret ⟨acc, reqs2⟩
        else attemptsLoop server perPage maxRetries page k (attempt + 1) acc seen (ce + 1) reqs2

/-- Truthy `max_pages and page > max_pages` (a zero limit is falsy). -/
def mpStop (mp : Option Nat) (page : Nat) : Bool :=
  match mp with
  | none => false
  | some m => m ≠ 0 && decide (m < page)

/-- The `while True` loop with explicit fuel; `none` models the (unreachable
for `max_retries ≥ 1`) divergence when the attempt loop falls through without
advancing the page.  The absolute ceiling is 50 pages. -/
def pagLoop (server : Nat → Nat → PageResp) (perPage maxRetries : Nat) (maxPages : Option Nat) :
    Nat → Nat → List PItem → List (List Nat) → Nat → List (Nat × Nat) → Option PagOut
  | 0, _, _, _, _, _ => none
  | f + 1, page, acc, seen, ce, reqs =>
    if mpStop maxPages page then some ⟨acc, reqs⟩
    else if 50 < page then some ⟨acc, reqs⟩
    else
      match attemptsLoop server perPage maxRetries page maxRetries 0 acc seen ce reqs with
      | .ret out => some out
      | .cont p a s c r => pagLoop server perPage maxRetries maxPages f p a s c r

/-- `get_paginated_data`: 60 units of fuel cover the 50-page ceiling. -/
def get_paginated_data (server : Nat → Nat → PageResp) (perPage maxRetries : Nat)
    (maxPages : Option Nat) : Option PagOut :=
  pagLoop server perPage maxRetries maxPages 60 1 [] [] 0 []

/-- Sorted distinct ids of a page: the claim's "set of item identifiers". -/
def setIdsP (data : List PItem) : List Nat := dedupKeepFirst (sortIdsP data)

/-! ## Concrete scenarios used by witnesses and counterexamples -/

/-- Parent course of the end-to-end title scenario. -/
def pCW : CourseRec :=
  { name := some (lstr "Parent Name"), course_code := some (lstr "ENGL-1301-001"),
    syllabus_body := some [] }

/-- The parent's native section. -/
def psecW : SectionRec :=
  { id := some 1, course_id := some 500, sis_section_id := some (lstr "ENGL-1301-001") }

/-- The merged-in child section (origin course 77). -/
def csecW : SectionRec :=
  { id := some 2, course_id := some 500, nonxlist_course_id := some 77,
    sis_section_id := some (lstr "ENGL-1301-005") }

/-- Origin-course lookup resolving course 77 to the child's code and name. -/
def lkFun (cname : LC) : Nat → Option (LC × LC) :=
  fun i => if i = 77 then some (lstr "ENGL-1301-005", cname) else none

/-- Validation candidates whose teacher-id sets are non-empty and disjoint. -/
def vParentW : VSection :=
  { course_id := some 1, published := false, course_code := lstr "MATH-1405",
    enrollment_term_id := some 5, teachers := [some 7] }

/-- Child validation candidate (published, same code and term). -/
def vChildW : VSection :=
  { course_id := some 2, published := true, course_code := lstr "MATH-1405",
    enrollment_term_id := some 5, teachers := [some 8] }

/-- Server whose pages 1 and 2 carry equal id sets but different sorted id
lists (`[1,1,2]` versus `[1,2,2]`), page 3 empty. -/
def srvDup : Nat → Nat → PageResp := fun p _ =>
  .ok (if p = 1 then [some 1, some 1, some 2]
       else if p = 2 then [some 1, some 2, some 2] else [])

/-- Server repeating page 1's ids verbatim on page 2. -/
def srvRep : Nat → Nat → PageResp := fun p _ =>
  .ok (if p = 1 then [some 1, some 2, some 3]
       else if p = 2 then [some 1, some 2, some 3] else [])

/-- Server answering page 1 and failing page 2 with HTTP 401. -/
def srv401 : Nat → Nat → PageResp := fun p _ =>
  if p = 1 then .ok [some 1, some 2, some 3] else .error (some 401)

/-- Course whose only section currently lives in course 2 with origin
course 3: the normalizer counterexample. -/
def cOrphW : CourseRec :=
  { id := some 1,
    sections := [{ id := some 10, course_id := some 2, nonxlist_course_id := some 3 }] }

/-- Course matching the claim's orphan instance: its only section has the
course's own id as origin and some other current course. -/
def cOrphSpecW : CourseRec :=
  { id := some 1,
    sections := [{ id := some 10, course_id := some 2, nonxlist_course_id := some 1 }] }

/-- Environment for the idempotent no-op cross-list: the section already
belongs to course 500. -/
def envNoopW : CLEnv :=
  { sections := fun _ => .ok { course_id := some 500, nonxlist_course_id := none },
    courses := fun _ => .ok { enrollment_term_id := some 9 },
    postResp := .ok (), postSections := fun _ => .ok {}, updates := none }

/-- Environment for the already-merged guard: current course 300, origin
course 200, target 500. -/
def envMergedW : CLEnv :=
  { sections := fun _ => .ok { course_id := some 300, nonxlist_course_id := some 200 },
    courses := fun _ => .ok { enrollment_term_id := some 9 },
    postResp := .ok (), postSections := fun _ => .ok {}, updates := none }

/-- Environment where the section is already cross-listed (origin 200,
current 300) and the parent and child courses sit in different terms
(9 versus 8), with no sandbox names. -/
def envMergedTermW : CLEnv :=
  { sections := fun _ => .ok { course_id := some 300, nonxlist_course_id := some 200 },
    courses := fun c => .ok (if c = some 500 then { enrollment_term_id := some 9 }
      else { enrollment_term_id := some 8 }),
    postResp := .ok (), postSections := fun _ => .ok {}, updates := none }

/-- Environment for the sandbox term-mismatch scenario: parent course 500 is
a sandbox with term 9, the child's course has term 8, and the mutation
verifies. -/
def envSandboxW : CLEnv :=
  { sections := fun _ => .ok { course_id := some 300, nonxlist_course_id := none },
    courses := fun c =>
      .ok (if c = some 500 then
        { enrollment_term_id := some 9, name := some (lstr "Sandbox Course 12 for user1") }
      else { enrollment_term_id := some 8 }),
    postResp := .ok (), postSections := fun _ => .ok { course_id := some 500 },
    updates := some {} }

/-- Environment for the un-cross-list no-op: no origin course. -/
def uenvNoopW : UnEnv :=
  { sections := fun _ => .ok { course_id := some 3, nonxlist_course_id := none },
    delResp := .ok (), postSections := fun _ => .ok {} }

/-- Environment where the removal reverts the section to its origin. -/
def uenvRevW : UnEnv :=
  { sections := fun _ => .ok { course_id := some 3, nonxlist_course_id := some 4 },
    delResp := .ok (), postSections := fun _ => .ok { course_id := some 4 } }

/-! ## Lemmas: prefixes and occurrences -/

theorem isPre_iff_take {p ys : LC} : isPre p ys = true ↔ ys.take p.length = p := by
  induction p generalizing ys with
  | nil => simp [isPre]
  | cons a as ih =>
    cases ys with
    | nil => simp [isPre]
    | cons y ys =>
      simp only [isPre, List.length_cons, List.take_succ_cons, Bool.and_eq_true, beq_iff_eq]
      constructor
      · rintro ⟨rfl, h⟩
        simp [ih.mp h]
      · intro h
        have h1 := List.head_eq_of_cons_eq h
        have h2 := List.tail_eq_of_cons_eq h
        exact ⟨h1.symm, ih.mpr h2⟩

theorem isPre_length {p ys : LC} (h : isPre p ys = true) : p.length ≤ ys.length := by
  have := isPre_iff_take.mp h
  have hl : (ys.take p.length).length = p.length := by rw [this]
  simp only [List.length_take] at hl
  omega

theorem isPre_false_of_short {p ys : LC} (h : ys.length < p.length) : isPre p ys = false := by
  cases hh : isPre p ys
  · rfl
  · exact absurd (isPre_length hh) (by omega)

theorem isPre_self_app (p t : LC) : isPre p (p ++ t) = true := by
  rw [isPre_iff_take, List.take_left]

theorem boolEqOfIff {a b : Bool} (h : a = true ↔ b = true) : a = b := by
  cases a <;> cases b <;> simp_all

theorem isPre_ext {p W : LC} (Z : LC) (h : isPre p W = true) : isPre p (W ++ Z) = true := by
  have hl := isPre_length h
  rw [isPre_iff_take] at h ⊢
  rw [List.take_append_eq_append_take, h]
  have h0 : p.length - W.length = 0 := by omega
  simp [h0]

theorem isPre_congr_take {p ys zs : LC} (h : ys.take p.length = zs.take p.length) :
    isPre p ys = isPre p zs := by
  apply boolEqOfIff
  rw [isPre_iff_take, isPre_iff_take, h]

theorem isPre_app_of_le {p Y : LC} (Z : LC) (h : p.length ≤ Y.length) :
    isPre p (Y ++ Z) = isPre p Y := by
  apply isPre_congr_take
  rw [List.take_append_eq_append_take]
  have h0 : p.length - Y.length = 0 := by omega
  simp [h0]

theorem isPre_take_of_le {p xs : LC} (n : Nat) (h : p.length ≤ n) :
    isPre p (xs.take n) = isPre p xs := by
  apply isPre_congr_take
  rw [List.take_take, Nat.min_eq_left h]

theorem isPre_char {p Y Z : LC} {c : Char} (h : isPre p (Y ++ c :: Z) = true)
    (hlen : Y.length < p.length) : p.get ⟨Y.length, hlen⟩ = c := by
  induction Y generalizing p with
  | nil =>
    cases p with
    | nil => exact absurd hlen (by simp)
    | cons a as =>
      simp only [List.nil_append, isPre, Bool.and_eq_true, beq_iff_eq] at h
      exact h.1
  | cons y Y ih =>
    cases p with
    | nil => exact absurd hlen (by simp)
    | cons a as =>
      simp only [List.cons_append, isPre, Bool.and_eq_true, beq_iff_eq] at h
      have hlen2 : Y.length < as.length := by
        simp only [List.length_cons] at hlen; omega
      exact ih h.2 hlen2

theorem firstOcc_some_pre {p xs : LC} {i : Nat} (h : firstOcc p xs = some i) :
    isPre p (xs.drop i) = true := by
  induction xs generalizing i with
  | nil =>
    simp only [firstOcc] at h
    split at h
    · cases h; exact ‹isPre p [] = true›
    · cases h
  | cons x xs ih =>
    simp only [firstOcc] at h
    split at h
    · cases h; exact ‹isPre p (x :: xs) = true›
    · cases hf : firstOcc p xs with
      | none => rw [hf] at h; cases h
      | some j =>
        rw [hf] at h
        simp only [Option.map_some'] at h
        cases h
        exact ih hf

theorem firstOcc_some_min {p xs : LC} {i : Nat} (h : firstOcc p xs = some i) :
    ∀ k, k < i → isPre p (xs.drop k) = false := by
  induction xs generalizing i with
  | nil =>
    simp only [firstOcc] at h
    split at h
    · cases h; omega
    · cases h
  | cons x xs ih =>
    simp only [firstOcc] at h
    split at h
    · cases h; omega
    · cases hf : firstOcc p xs with
      | none => rw [hf] at h; cases h
      | some j =>
        rw [hf] at h
        simp only [Option.map_some'] at h
        cases h
        intro k hk
        cases k with
        | zero => simpa using ‹¬ isPre p (x :: xs) = true›
        | succ k2 => exact ih hf k2 (by omega)

theorem firstOcc_none_all {p xs : LC} (h : firstOcc p xs = none) :
    ∀ k, isPre p (xs.drop k) = false := by
  induction xs with
  | nil =>
    simp only [firstOcc] at h
    split at h
    · cases h
    · intro k; simpa using ‹¬ isPre p [] = true›
  | cons x xs ih =>
    simp only [firstOcc] at h
    split at h
    · cases h
    · intro k
      cases k with
      | zero => simpa using ‹¬ isPre p (x :: xs) = true›
      | succ k2 =>
        cases hf : firstOcc p xs with
        | none => exact ih hf k2
        | some j => rw [hf] at h; cases h

theorem firstOcc_isSome_of {p xs : LC} {k : Nat} (h : isPre p (xs.drop k) = true) :
    (firstOcc p xs).isSome = true := by
  cases hf : firstOcc p xs with
  | none => rw [firstOcc_none_all hf k] at h; cases h
  | some i => rfl

theorem firstOcc_eq_some {p xs : LC} {i : Nat} (hp : isPre p (xs.drop i) = true)
    (hmin : ∀ k, k < i → isPre p (xs.drop k) = false) : firstOcc p xs = some i := by
  cases hf : firstOcc p xs with
  | none => rw [firstOcc_none_all hf i] at hp; cases hp
  | some j =>
    have hj := firstOcc_some_pre hf
    rcases Nat.lt_trichotomy i j with hij | hij | hij
    · rw [firstOcc_some_min hf i hij] at hp; cases hp
    · rw [hij]
    · rw [hmin j hij] at hj; cases hj

theorem occursB_false_all {p xs : LC} (h : occursB p xs = false) :
    ∀ k, isPre p (xs.drop k) = false := by
  intro k
  cases hf : firstOcc p xs with
  | none => exact firstOcc_none_all hf k
  | some i => rw [occursB, hf] at h; cases h

theorem occursB_of_drop {p xs : LC} {k : Nat} (h : isPre p (xs.drop k) = true) :
    occursB p xs = true := firstOcc_isSome_of h

theorem occursB_of_decomp {p xs X Z : LC} (h : xs = X ++ (p ++ Z)) : occursB p xs = true := by
  apply occursB_of_drop (k := X.length)
  rw [h, List.drop_left]
  exact isPre_self_app p Z

theorem occursB_mono_app {p X : LC} (Y : LC) (h : occursB p X = true) :
    occursB p (X ++ Y) = true := by
  cases hf : firstOcc p X with
  | none => rw [occursB, hf] at h; cases h
  | some i =>
    have hi := firstOcc_some_pre hf
    apply occursB_of_drop (k := i)
    rcases Nat.le_total i X.length with hle | hle
    · rw [List.drop_append_eq_append_drop]
      have h0 : i - X.length = 0 := by omega
      rw [h0]
      simpa using isPre_ext _ hi
    · have : X.drop i = [] := List.drop_eq_nil_of_le hle
      rw [this] at hi
      have : p = [] := by
        cases p with
        | nil => rfl
        | cons a as => simp [isPre] at hi
      subst this
      simp [isPre]

theorem occursB_false_of_app {p X Y : LC} (h : occursB p (X ++ Y) = false) :
    occursB p X = false := by
  cases hx : occursB p X
  · rfl
  · rw [occursB_mono_app Y hx] at h; cases h

/-! ## Lemmas: the marker structure of the syllabus block -/

theorem SM_ne_nil : SM ≠ [] := by decide

theorem EM_ne_nil : EM ≠ [] := by decide

theorem SM_len_pos : 0 < SM.length := by decide

theorem EM_len_pos : 0 < EM.length := by decide

theorem SM_head_lt : ∃ t, SM = '<' :: t := ⟨(lstr "!-- CROSSLIST_CHILDREN -->"), by decide⟩

theorem EM_head_lt : ∃ t, EM = '<' :: t := ⟨(lstr "!-- END_CROSSLIST_CHILDREN -->"), by decide⟩

theorem SM_lt_only0_fin : ∀ i : Fin SM.length, SM.get i = '<' → i.val = 0 := by decide

theorem EM_lt_only0_fin : ∀ i : Fin EM.length, EM.get i = '<' → i.val = 0 := by decide

theorem SM_lt_only0 : ∀ (i : Nat) (h : i < SM.length), SM.get ⟨i, h⟩ = '<' → i = 0 :=
  fun i h hc => SM_lt_only0_fin ⟨i, h⟩ hc

theorem EM_lt_only0 : ∀ (i : Nat) (h : i < EM.length), EM.get ⟨i, h⟩ = '<' → i = 0 :=
  fun i h hc => EM_lt_only0_fin ⟨i, h⟩ hc

/-- Occurrences of `p` cannot start strictly inside `A` when `A` is free of
them and the continuation starts with a character `p` carries only at its
head: a straddling occurrence would place that character at a positive index
of `p`. -/
theorem noPreStraddle {p A B : LC} {c0 : Char}
    (hch : ∀ (i : Nat) (h : i < p.length), p.get ⟨i, h⟩ = c0 → i = 0)
    (hB : ∃ bt, B = c0 :: bt)
    (hnA : ∀ k, isPre p (A.drop k) = false) :
    ∀ k, k < A.length → isPre p ((A ++ B).drop k) = false := by
  intro k hk
  have hdrop : (A ++ B).drop k = A.drop k ++ B := by
    rw [List.drop_append_eq_append_drop]
    have h0 : k - A.length = 0 := by omega
    rw [h0, List.drop]
  rw [hdrop]
  cases hle : decide (p.length ≤ (A.drop k).length) with
  | true =>
    have hle2 := of_decide_eq_true hle
    rw [isPre_app_of_le B hle2]
    exact hnA k
  | false =>
    have hlt : (A.drop k).length < p.length := by
      have := of_decide_eq_false hle; omega
    obtain ⟨bt, rfl⟩ := hB
    cases hyp : isPre p (A.drop k ++ c0 :: bt)
    · rfl
    · exfalso
      have hc := isPre_char hyp hlt
      have h0 := hch _ hlt (by exact hc)
      have : A.length ≤ k := by
        rw [List.length_drop] at h0
        omega
      omega

/-- When a prefix segment admits no occurrence, the first occurrence of `p`
in `A ++ B` sits exactly at `A.length`. -/
theorem firstOcc_append_at {p A B : LC}
    (hB : isPre p B = true)
    (hA : ∀ k, k < A.length → isPre p ((A ++ B).drop k) = false) :
    firstOcc p (A ++ B) = some A.length := by
  apply firstOcc_eq_some
  · rw [List.drop_left]
    exact hB
  · exact hA

/-! ## Lemmas: the marker-block substitution -/

theorem findM_nil : findM [] = none := by decide

theorem findM_some_spec {xs : LC} {i l : Nat} (h : findM xs = some (i, l)) :
    firstOcc SM xs = some i ∧
    ∃ j, firstOcc EM (xs.drop (i + SM.length)) = some j ∧ l = SM.length + j + EM.length := by
  unfold findM at h
  split at h
  · cases h
  · next i0 h1 =>
    split at h
    · cases h
    · next j0 h2 =>
      injection h with h3
      rw [Prod.mk.injEq] at h3
      obtain ⟨hi, hl⟩ := h3
      subst hi
      subst hl
      exact ⟨h1, j0, h2, rfl⟩

theorem findM_bounds {xs : LC} {i l : Nat} (h : findM xs = some (i, l)) :
    0 < l ∧ i + l ≤ xs.length ∧ 0 < xs.length := by
  obtain ⟨h1, j, h2, rfl⟩ := findM_some_spec h
  have hp1 := isPre_length (firstOcc_some_pre h1)
  have hp2 := isPre_length (firstOcc_some_pre h2)
  rw [List.length_drop] at hp1
  rw [List.length_drop, List.length_drop] at hp2
  have := SM_len_pos
  have := EM_len_pos
  omega

theorem subF_of_none {b xs : LC} (h : findM xs = none) : ∀ n, subF b n xs = xs := by
  intro n
  cases n with
  | zero => rfl
  | succ n2 => simp [subF, h]

theorem subF_succ_of_some {b xs : LC} {i l n : Nat} (h : findM xs = some (i, l)) :
    subF b (n + 1) xs = xs.take i ++ b ++ subF b n (xs.drop (i + l)) := by
  simp [subF, h]

theorem subF_congr {b : LC} : ∀ (n : Nat) (xs : LC) (m : Nat), xs.length ≤ n → xs.length ≤ m →
    subF b n xs = subF b m xs := by
  intro n
  induction n with
  | zero =>
    intro xs m h1 _
    have hx : xs = [] := List.length_eq_zero.mp (by omega)
    subst hx
    rw [subF_of_none findM_nil, subF_of_none findM_nil]
  | succ n2 ih =>
    intro xs m h1 h2
    cases hf : findM xs with
    | none => rw [subF_of_none hf, subF_of_none hf]
    | some il =>
      obtain ⟨i, l⟩ := il
      obtain ⟨hl, hil, hx⟩ := findM_bounds hf
      cases m with
      | zero => omega
      | succ m2 =>
        rw [subF_succ_of_some hf, subF_succ_of_some hf]
        congr 1
        apply ih
        · rw [List.length_drop]; omega
        · rw [List.length_drop]; omega

theorem subAll_of_none {b xs : LC} (h : findM xs = none) : subAll b xs = xs :=
  subF_of_none h _

theorem subAll_of_some {b xs : LC} {i l : Nat} (h : findM xs = some (i, l)) :
    subAll b xs = xs.take i ++ b ++ subAll b (xs.drop (i + l)) := by
  obtain ⟨hl, hil, hx⟩ := findM_bounds h
  unfold subAll
  cases hn : xs.length with
  | zero => omega
  | succ n2 =>
    rw [subF_succ_of_some h]
    have he : subF b n2 (xs.drop (i + l)) = subF b (xs.drop (i + l)).length (xs.drop (i + l)) := by
      apply subF_congr
      · rw [List.length_drop]; omega
      · exact Nat.le_refl _
    rw [he]

/-- Canonical shapes fixed by the substitution: segments free of opening
markers, alternating with exact copies of the block, ending in a matchless
tail. -/
inductive CanonB (mid : LC) : LC → Prop where
  | base : ∀ xs, findM xs = none → CanonB mid xs
  | seg : ∀ A rest,
      (∀ k, k < A.length → isPre SM ((A ++ ((SM ++ mid ++ EM) ++ rest)).drop k) = false) →
      CanonB mid rest → CanonB mid (A ++ ((SM ++ mid ++ EM) ++ rest))

theorem EM_first_in_tail {mid : LC} (hmid : occursB EM (SM ++ mid) = false) (rest : LC) :
    firstOcc EM (mid ++ (EM ++ rest)) = some mid.length := by
  apply firstOcc_eq_some
  · rw [List.drop_left]
    exact isPre_self_app EM rest
  · apply noPreStraddle EM_lt_only0
    · obtain ⟨t, ht⟩ := EM_head_lt
      exact ⟨t ++ rest, by rw [ht]; rfl⟩
    · intro k
      have hk : isPre EM (mid.drop k) = isPre EM ((SM ++ mid).drop (SM.length + k)) := by
        rw [List.drop_append_eq_append_drop]
        have h1 : SM.length + k - SM.length = k := by omega
        have h2 : SM.drop (SM.length + k) = [] := List.drop_eq_nil_of_le (by omega)
        rw [h1, h2]
        rfl
      rw [hk]
      exact occursB_false_all hmid _

theorem findM_eq_of {xs : LC} {i j : Nat} (h1 : firstOcc SM xs = some i)
    (h2 : firstOcc EM (xs.drop (i + SM.length)) = some j) :
    findM xs = some (i, SM.length + j + EM.length) := by
  simp only [findM, h1, h2]

theorem findM_seg {mid : LC} (hmid : occursB EM (SM ++ mid) = false) (A rest : LC)
    (hA : ∀ k, k < A.length → isPre SM ((A ++ ((SM ++ mid ++ EM) ++ rest)).drop k) = false) :
    findM (A ++ ((SM ++ mid ++ EM) ++ rest)) = some (A.length, (SM ++ mid ++ EM).length) := by
  have hfS : firstOcc SM (A ++ ((SM ++ mid ++ EM) ++ rest)) = some A.length := by
    apply firstOcc_append_at
    · have : (SM ++ mid ++ EM) ++ rest = SM ++ (mid ++ EM ++ rest) := by
        simp [List.append_assoc]
      rw [this]
      exact isPre_self_app SM _
    · exact hA
  have hdrop : (A ++ ((SM ++ mid ++ EM) ++ rest)).drop (A.length + SM.length)
      = mid ++ (EM ++ rest) := by
    rw [List.drop_append_eq_append_drop]
    have h1 : A.drop (A.length + SM.length) = [] := List.drop_eq_nil_of_le (by omega)
    have h2 : A.length + SM.length - A.length = SM.length := by omega
    rw [h1, h2, List.nil_append]
    have : (SM ++ mid ++ EM) ++ rest = SM ++ (mid ++ (EM ++ rest)) := by
      simp [List.append_assoc]
    rw [this, List.drop_left]
  have h2 : firstOcc EM ((A ++ ((SM ++ mid ++ EM) ++ rest)).drop (A.length + SM.length))
      = some mid.length := by
    rw [hdrop]
    exact EM_first_in_tail hmid rest
  rw [findM_eq_of hfS h2]
  have hlen : (SM ++ mid ++ EM).length = SM.length + mid.length + EM.length := by
    rw [List.length_append, List.length_append]
  rw [hlen]

theorem canon_fixed {mid : LC} (hmid : occursB EM (SM ++ mid) = false) {xs : LC}
    (h : CanonB mid xs) : subAll (SM ++ mid ++ EM) xs = xs := by
  induction h with
  | base xs h0 => exact subAll_of_none h0
  | seg A rest hA hr ih =>
    rw [subAll_of_some (findM_seg hmid A rest hA)]
    have ht : (A ++ ((SM ++ mid ++ EM) ++ rest)).take A.length = A := List.take_left A _
    have hd : (A ++ ((SM ++ mid ++ EM) ++ rest)).drop (A.length + (SM ++ mid ++ EM).length)
        = rest := by
      rw [List.drop_append_eq_append_drop]
      have h1 : A.drop (A.length + (SM ++ mid ++ EM).length) = [] :=
        List.drop_eq_nil_of_le (by omega)
      have h2 : A.length + (SM ++ mid ++ EM).length - A.length = (SM ++ mid ++ EM).length := by
        omega
      rw [h1, h2, List.nil_append, List.drop_left]
    rw [ht, hd, ih]
    simp [List.append_assoc]

theorem canon_subAll {mid : LC} (hmid : occursB EM (SM ++ mid) = false) :
    ∀ (n : Nat) (xs : LC), xs.length ≤ n → CanonB mid (subAll (SM ++ mid ++ EM) xs) := by
  intro n
  induction n with
  | zero =>
    intro xs h1
    have hx : xs = [] := List.length_eq_zero.mp (by omega)
    subst hx
    rw [subAll_of_none findM_nil]
    exact CanonB.base [] findM_nil
  | succ n2 ih =>
    intro xs h1
    cases hf : findM xs with
    | none =>
      rw [subAll_of_none hf]
      exact CanonB.base xs hf
    | some il =>
      obtain ⟨i, l⟩ := il
      obtain ⟨hl, hil, hx⟩ := findM_bounds hf
      rw [subAll_of_some hf]
      have hrest : CanonB mid (subAll (SM ++ mid ++ EM) (xs.drop (i + l))) := by
        apply ih
        rw [List.length_drop]
        omega
      have hassoc : xs.take i ++ (SM ++ mid ++ EM) ++ subAll (SM ++ mid ++ EM) (xs.drop (i + l))
          = xs.take i ++ ((SM ++ mid ++ EM) ++ subAll (SM ++ mid ++ EM) (xs.drop (i + l))) := by
        simp [List.append_assoc]
      rw [hassoc]
      apply CanonB.seg _ _ _ hrest
      intro k hk
      have hkl : (xs.take i).length = i := by
        rw [List.length_take]
        omega
      rw [hkl] at hk
      obtain ⟨hS1, _⟩ := findM_some_spec hf
      have hmin := firstOcc_some_min hS1
      apply noPreStraddle SM_lt_only0 (B := (SM ++ mid ++ EM) ++ subAll (SM ++ mid ++ EM) (xs.drop (i + l)))
      · obtain ⟨t, ht⟩ := SM_head_lt
        exact ⟨t ++ mid ++ EM ++ subAll (SM ++ mid ++ EM) (xs.drop (i + l)), by
          rw [ht]; simp [List.append_assoc]⟩
      · intro k2
        cases hcmp : decide (i ≤ k2) with
        | true =>
          have hc := of_decide_eq_true hcmp
          have : (xs.take i).drop k2 = [] :=
            List.drop_eq_nil_of_le (by rw [hkl]; exact hc)
          rw [this]
          exact isPre_false_of_short (by simpa using SM_len_pos)
        | false =>
          have hc : k2 < i := by have := of_decide_eq_false hcmp; omega
          have hdt : (xs.take i).drop k2 = (xs.drop k2).take (i - k2) := by
            rw [List.drop_take]
          rw [hdt]
          cases hcmp2 : decide (SM.length ≤ i - k2) with
          | true =>
            have hc2 := of_decide_eq_true hcmp2
            rw [isPre_take_of_le _ hc2]
            exact hmin k2 hc
          | false =>
            have hc2 : i - k2 < SM.length := by have := of_decide_eq_false hcmp2; omega
            apply isPre_false_of_short
            rw [List.length_take, List.length_drop]
            omega
      · rw [hkl]
        exact hk

theorem subAll_idem {mid : LC} (hmid : occursB EM (SM ++ mid) = false) (xs : LC) :
    subAll (SM ++ mid ++ EM) (subAll (SM ++ mid ++ EM) xs) = subAll (SM ++ mid ++ EM) xs :=
  canon_fixed hmid (canon_subAll hmid xs.length xs (Nat.le_refl _))

theorem subAll_append_block {mid : LC} (hmid : occursB EM (SM ++ mid) = false) (A : LC)
    (hA : occursB SM A = false) :
    subAll (SM ++ mid ++ EM) (A ++ (SM ++ mid ++ EM)) = A ++ (SM ++ mid ++ EM) := by
  have hshape : A ++ (SM ++ mid ++ EM) = A ++ ((SM ++ mid ++ EM) ++ []) := by
    simp
  rw [hshape]
  apply canon_fixed hmid
  apply CanonB.seg _ _ _ (CanonB.base [] findM_nil)
  apply noPreStraddle SM_lt_only0
  · obtain ⟨t, ht⟩ := SM_head_lt
    exact ⟨t ++ mid ++ EM ++ [], by rw [ht]; simp [List.append_assoc]⟩
  · exact occursB_false_all hA

theorem stepBody_replace {cur pps : LC} {children : List (LC × LC)}
    (h : (occursB SM cur && occursB EM cur) = true) :
    syllabusStepBody cur pps children =
      if subAll (build_children_html_list children) cur ≠ cur
      then (subAll (build_children_html_list children) cur, true) else (cur, false) := by
  unfold syllabusStepBody
  simp only [h]
  rfl

theorem stepBody_append {cur pps : LC} {children : List (LC × LC)}
    (h : (occursB SM cur && occursB EM cur) = false) :
    syllabusStepBody cur pps children =
      (cur ++ sepOf cur ++ pmOf pps ++ hdrC ++ build_children_html_list children, true) := by
  unfold syllabusStepBody
  simp only [h]
  rfl

theorem blockC_eq (children : List (LC × LC)) :
    build_children_html_list children = SM ++ midC children ++ EM := rfl

/-- C5 amended: running the content updater's syllabus step twice with an
unchanged child set leaves the body byte-identical and issues no second
update, for every pre-state syllabus that either contains both markers or
would not contribute a stray opening marker to the appended text, given that
the rendered child entries do not themselves contain the closing marker. -/
theorem syllabus_second_run (cur pps pps2 : LC) (children : List (LC × LC))
    (hcase : (occursB SM cur && occursB EM cur) = true ∨
             occursB SM (cur ++ sepOf cur ++ pmOf pps ++ hdrC) = false)
    (hmid : occursB EM (SM ++ midC children) = false) :
    (syllabusStepBody (syllabusStepBody cur pps children).1 pps2 children).1
        = (syllabusStepBody cur pps children).1 ∧
    (syllabusStepBody (syllabusStepBody cur pps children).1 pps2 children).2 = false := by
  rcases hcase with hboth | hApart
  · by_cases hns : subAll (build_children_html_list children) cur = cur
    · have hstep1 : syllabusStepBody cur pps children = (cur, false) := by
        rw [stepBody_replace hboth, if_neg (fun hne => hne hns)]
      have hstep2 : syllabusStepBody cur pps2 children = (cur, false) := by
        rw [stepBody_replace hboth, if_neg (fun hne => hne hns)]
      simp [hstep1, hstep2]
    · have hstep1 : syllabusStepBody cur pps children
          = (subAll (build_children_html_list children) cur, true) := by
        rw [stepBody_replace hboth, if_pos hns]
      cases hf : findM cur with
      | none => exact absurd (subAll_of_none hf) hns
      | some il =>
        obtain ⟨i, l⟩ := il
        have hform : subAll (build_children_html_list children) cur
            = cur.take i ++ build_children_html_list children
            ++ subAll (build_children_html_list children) (cur.drop (i + l)) :=
          subAll_of_some hf
        have hSM : occursB SM (subAll (build_children_html_list children) cur) = true := by
          apply occursB_of_decomp (X := cur.take i)
            (Z := midC children ++ EM ++ subAll (build_children_html_list children) (cur.drop (i + l)))
          rw [hform, blockC_eq]
          simp [List.append_assoc]
        have hEM : occursB EM (subAll (build_children_html_list children) cur) = true := by
          apply occursB_of_decomp (X := cur.take i ++ SM ++ midC children)
            (Z := subAll (build_children_html_list children) (cur.drop (i + l)))
          rw [hform, blockC_eq]
          simp [List.append_assoc]
        have hcond2 : (occursB SM (subAll (build_children_html_list children) cur)
            && occursB EM (subAll (build_children_html_list children) cur)) = true := by
          rw [hSM, hEM]; rfl
        have hidem : subAll (build_children_html_list children)
            (subAll (build_children_html_list children) cur)
            = subAll (build_children_html_list children) cur := by
          rw [blockC_eq]
          exact subAll_idem hmid cur
        have hstep2 : syllabusStepBody (subAll (build_children_html_list children) cur)
            pps2 children = (subAll (build_children_html_list children) cur, false) := by
          rw [stepBody_replace hcond2, if_neg (fun hne => hne hidem)]
        simp [hstep1, hstep2]
  · have hSc : occursB SM cur = false := by
      have h1 := occursB_false_of_app (X := cur ++ sepOf cur ++ pmOf pps) (Y := hdrC)
        (by simpa using hApart)
      have h2 := occursB_false_of_app (X := cur ++ sepOf cur) (Y := pmOf pps)
        (by simpa using h1)
      exact occursB_false_of_app (X := cur) (Y := sepOf cur) (by simpa using h2)
    have hcond1 : (occursB SM cur && occursB EM cur) = false := by
      rw [hSc]; rfl
    have hstep1 : syllabusStepBody cur pps children
        = (cur ++ sepOf cur ++ pmOf pps ++ hdrC ++ build_children_html_list children, true) :=
      stepBody_append hcond1
    have hSM2 : occursB SM (cur ++ sepOf cur ++ pmOf pps ++ hdrC
        ++ build_children_html_list children) = true := by
      apply occursB_of_decomp (X := cur ++ sepOf cur ++ pmOf pps ++ hdrC)
        (Z := midC children ++ EM)
      rw [blockC_eq]
      simp [List.append_assoc]
    have hEM2 : occursB EM (cur ++ sepOf cur ++ pmOf pps ++ hdrC
        ++ build_children_html_list children) = true := by
      apply occursB_of_decomp (X := cur ++ sepOf cur ++ pmOf pps ++ hdrC ++ SM ++ midC children)
        (Z := [])
      rw [blockC_eq]
      simp [List.append_assoc]
    have hcond2 : (occursB SM (cur ++ sepOf cur ++ pmOf pps ++ hdrC
        ++ build_children_html_list children)
        && occursB EM (cur ++ sepOf cur ++ pmOf pps ++ hdrC
        ++ build_children_html_list children)) = true := by
      rw [hSM2, hEM2]; rfl
    have hfix : subAll (build_children_html_list children)
        (cur ++ sepOf cur ++ pmOf pps ++ hdrC ++ build_children_html_list children)
        = cur ++ sepOf cur ++ pmOf pps ++ hdrC ++ build_children_html_list children := by
      rw [blockC_eq]
      exact subAll_append_block hmid _ hApart
    have hstep2 : syllabusStepBody (cur ++ sepOf cur ++ pmOf pps ++ hdrC
        ++ build_children_html_list children) pps2 children
        = (cur ++ sepOf cur ++ pmOf pps ++ hdrC ++ build_children_html_list children, false) := by
      rw [stepBody_replace hcond2, if_neg (fun hne => hne hfix)]
    rw [hstep1]
    dsimp only
    rw [hstep2]
    exact ⟨rfl, rfl⟩

/-! ## Lemmas: pagination -/

theorem attemptsLoop_cont_succ {server : Nat → Nat → PageResp} {perPage maxRetries page : Nat}
    (hr : 1 ≤ maxRetries) :
    ∀ (k attempt : Nat) (acc : List PItem) (seen : List (List Nat)) (ce : Nat)
      (reqs : List (Nat × Nat)) (p : Nat) (a : List PItem) (s : List (List Nat)) (c : Nat)
      (r : List (Nat × Nat)),
      attempt + k = maxRetries → 1 ≤ k →
      attemptsLoop server perPage maxRetries page k attempt acc seen ce reqs
        = .cont p a s c r → p = page + 1 := by
  intro k
  induction k with
  | zero => intro _ _ _ _ _ _ _ _ _ _ _ hk h; omega
  | succ k2 ih =>
    intro attempt acc seen ce reqs p a s c r hsum _ h
    unfold attemptsLoop at h
    cases hsrv : server page attempt with
    | ok data =>
      rw [hsrv] at h
      simp only at h
      split at h
      · cases h
      · split at h
        · cases h
        · split at h
          · cases h
          · cases h; rfl
    | error st =>
      rw [hsrv] at h
      simp only at h
      split at h
      · cases h
      · split at h
        · cases h
        · cases k2 with
          | zero =>
            exfalso
            have : attempt = maxRetries - 1 := by omega
            simp [this] at h
            exact absurd this (by assumption)
          | succ k3 => exact ih (attempt + 1) acc seen (ce + 1) _ p a s c r (by omega) (by omega) h

theorem pagLoop_stable {server : Nat → Nat → PageResp} {perPage maxRetries : Nat}
    {maxPages : Option Nat} (hr : 1 ≤ maxRetries) :
    ∀ (n page : Nat) (acc : List PItem) (seen : List (List Nat)) (ce : Nat)
      (reqs : List (Nat × Nat)) (f : Nat), 51 - page ≤ n → n < f →
      pagLoop server perPage maxRetries maxPages f page acc seen ce reqs
        = pagLoop server perPage maxRetries maxPages (n + 1) page acc seen ce reqs ∧
      (pagLoop server perPage maxRetries maxPages (n + 1) page acc seen ce reqs).isSome = true := by
  intro n
  induction n with
  | zero =>
    intro page acc seen ce reqs f h1 h2
    have hlt : 50 < page := by omega
    cases f with
    | zero => omega
    | succ f2 =>
      unfold pagLoop
      cases hmp : mpStop maxPages page with
      | true => simp [hmp]
      | false => simp [hmp, hlt]
  | succ n2 ih =>
    intro page acc seen ce reqs f h1 h2
    cases f with
    | zero => omega
    | succ f2 =>
      unfold pagLoop
      cases hmp : mpStop maxPages page with
      | true => simp [hmp]
      | false =>
        rcases Nat.lt_or_ge 50 page with hlt | hge
        · simp [hmp, hlt]
        · have hnlt : ¬ (50 < page) := by omega
          simp only [hmp, Bool.false_eq_true, if_false, if_neg hnlt]
          cases hal : attemptsLoop server perPage maxRetries page maxRetries 0 acc seen ce reqs with
          | ret out => exact ⟨rfl, rfl⟩
          | cont p a s c r =>
            have hp : p = page + 1 :=
              attemptsLoop_cont_succ hr maxRetries 0 acc seen ce reqs p a s c r (by omega)
                (by omega) hal
            subst hp
            exact ih (page + 1) a s c r f2 (by omega) (by omega)

/-! ## Lemmas: normalizer -/

theorem procSections_nil_iff (cid : Option Nat) :
    ∀ (secs : List SectionRec) (seen : List (Option Nat)),
      (procSections cid seen secs).1 = [] ↔
      ∀ s ∈ secs, s.id ∈ seen ∨ sectionEffCourse s cid ≠ cid := by
  intro secs
  induction secs with
  | nil => intro seen; simp [procSections]
  | cons s rest ih =>
    intro seen
    unfold procSections
    by_cases hmem : s.id ∈ seen
    · rw [if_pos hmem]
      rw [ih seen]
      constructor
      · intro h t ht
        rcases List.mem_cons.mp ht with rfl | ht2
        · exact Or.inl hmem
        · exact h t ht2
      · intro h t ht
        exact h t (List.mem_cons_of_mem s ht)
    · rw [if_neg hmem]
      by_cases heff : sectionEffCourse s cid ≠ cid
      · rw [if_pos heff]
        rw [ih seen]
        constructor
        · intro h t ht
          rcases List.mem_cons.mp ht with rfl | ht2
          · exact Or.inr heff
          · exact h t ht2
        · intro h t ht
          exact h t (List.mem_cons_of_mem s ht)
      · rw [if_neg heff]
        constructor
        · intro h
          exact absurd h (by simp)
        · intro h
          exfalso
          rcases h s (List.mem_cons_self s rest) with hmem2 | heff2
          · exact hmem hmem2
          · exact heff2 (by simpa using heff)

/-! ## Claim theorems -/

/-- C3: evaluation at the failing input.  For a candidate pair whose teacher
id sets are non-empty and disjoint, `validate_cross_listing_candidates`
returns the single flat list of blocking errors containing the
teacher-mismatch entry: there is no separate warning list, and the
one-element result cannot be unpacked as the `(errors, warnings)` pair that
`app.py:955` and `crosslisting_gui.py:1997` expect. -/
theorem validate_teacher_mismatch_blocking_eval :
    validate_cross_listing_candidates {} vParentW vChildW
      = [lstr "Teachers must match between parent and child courses"] ∧
    (validate_cross_listing_candidates {} vParentW vChildW).length = 1 := by
  constructor
  · rfl
  · rfl

/-- C6 counterexample: course 1's only section has origin course 3 (not 1)
and current course 2.  Per the claim's definition of "belongs elsewhere"
(origin equal to the iterated course) the section does not belong elsewhere,
yet the code's first-pass predicate classifies the course orphaned and the
course is excluded from the output. -/
theorem normalizer_orphan_counterexample :
    build_course_artifacts_json [cOrphW] = [] ∧
    allSectionsElsewhere cOrphW.sections cOrphW.id = true ∧
    (∀ s ∈ cOrphW.sections, belongsElsewhereSpec s cOrphW.id = false) := by
  refine ⟨rfl, rfl, ?_⟩
  intro s hs
  simp only [cOrphW] at hs
  rcases List.mem_singleton.mp hs with rfl
  rfl

/-- C6 amended: a single course with a non-empty section list is excluded
from the normalizer's output exactly when every contained section's
effective current course differs from the course being iterated — the
original-course identifier plays no role in exclusion (the code, contrary to
its own comment, never compares it with the iterated course).  In
particular the claim's instance (only section with origin = the course's own
id and a different current course) is excluded entirely. -/
theorem normalizer_orphan_amended (c : CourseRec) (hne : c.sections ≠ []) :
    (build_course_artifacts_json [c] = [] ↔
      ∀ s ∈ c.sections, sectionEffCourse s c.id ≠ c.id) := by
  unfold build_course_artifacts_json
  simp only [procCourses]
  rw [if_neg (List.not_mem_nil c.id)]
  rw [if_neg hne]
  by_cases hall : allSectionsElsewhere c.sections c.id = true
  · rw [if_pos hall]
    simp only [List.filter_nil]
    constructor
    · intro _ s hs
      have hb := List.all_eq_true.mp hall s hs
      simp only [Bool.not_eq_true'] at hb
      unfold sectionBelongsHere at hb
      simp only [Bool.or_eq_false_iff, decide_eq_false_iff_not] at hb
      exact hb.2
    · intro _
      trivial
  · rw [if_neg hall]
    have hiff := procSections_nil_iff c.id c.sections []
    constructor
    · intro h s hs
      by_cases hP : (procSections c.id [] c.sections).1 = []
      · rcases (hiff.mp hP) s hs with hmem | hne2
        · exact absurd hmem (List.not_mem_nil _)
        · exact hne2
      · exfalso
        simp [List.filter_cons, hP] at h
    · intro h
      have hP : (procSections c.id [] c.sections).1 = [] := by
        rw [hiff]
        intro s hs
        exact Or.inr (h s hs)
      simp [List.filter_cons, hP]

/-- C6 amended witness: the claim's single-section instance (origin = own
course id, current course different) is excluded entirely from the output. -/
theorem normalizer_orphan_amended_witness :
    cOrphSpecW.sections ≠ [] ∧ build_course_artifacts_json [cOrphSpecW] = [] :=
  ⟨by decide, (normalizer_orphan_amended cOrphSpecW (by decide)).mpr (by decide)⟩

/-- C4 counterexample: in the end-to-end scenario with parent code
`ENGL-1301-001` and merged-in child section of code `ENGL-1301-005`, the
updater's composed title is `"ENGL-1301-001/005: Parent Name"`, not the
claimed `"ENGL-1301-001: Parent Name and ENGL-1301-005: Child Name"`. -/
theorem optionC_title_counterexample :
    (apply_post_crosslist_updates pCW [psecW, csecW] (lkFun (lstr "Child Name")) none
      500).new_course_name = lstr "ENGL-1301-001/005: Parent Name" ∧
    (apply_post_crosslist_updates pCW [psecW, csecW] (lkFun (lstr "Child Name")) none
      500).new_course_name
      ≠ lstr "ENGL-1301-001: Parent Name and ENGL-1301-005: Child Name" := by
  constructor
  · rfl
  · decide

/-- C4 amended: after a verified merge the updater composes the parent title
per Option C — base code stripped of its trailing section suffix, then
`-<parentSuffix>/<childSuffix>`, a colon, and the parent's existing name; for
parent code `ENGL-1301-001` (suffix 001) and child section suffix 005 the new
title is `"ENGL-1301-001/005: "` followed by the parent's name, for every
parent and child display name. -/
theorem optionC_title_amended (pname cname : LC) :
    (apply_post_crosslist_updates
      { name := some pname, course_code := some (lstr "ENGL-1301-001"), syllabus_body := some [] }
      [psecW, csecW] (lkFun cname) none 500).new_course_name
      = lstr "ENGL-1301-001/005: " ++ pname := by
  rfl

/-- C5 counterexample: a pre-state syllabus consisting of the opening marker
alone (no closing marker) makes the first run append a fresh block; the
second run then rewrites from the stray opening marker, so the body after
run two differs from the body after run one. -/
theorem syllabus_second_run_counterexample :
    (syllabusStepBody
      (syllabusStepBody SM (lstr "001") [(lstr "C-1", lstr "N-1")]).1
      [] [(lstr "C-1", lstr "N-1")]).1
      ≠ (syllabusStepBody SM (lstr "001") [(lstr "C-1", lstr "N-1")]).1 := by
  decide

/-- C5 amended witness at the empty syllabus with one child entry. -/
theorem syllabus_second_run_witness :
    (occursB SM (([] : LC) ++ sepOf [] ++ pmOf (lstr "001") ++ hdrC) = false) ∧
    (syllabusStepBody (syllabusStepBody [] (lstr "001") [(lstr "C-1", lstr "N-1")]).1
      [] [(lstr "C-1", lstr "N-1")]).1
      = (syllabusStepBody [] (lstr "001") [(lstr "C-1", lstr "N-1")]).1 :=
  ⟨by decide,
    (syllabus_second_run [] (lstr "001") [] [(lstr "C-1", lstr "N-1")]
      (Or.inr (by decide)) (by decide)).1⟩

/-- C7 counterexample: pages 1 and 2 carry equal id *sets* but different
sorted id lists, so pagination does not stop after page 1 as the claim
states: it fetches page 3 and returns both pages' items. -/
theorem pagination_set_stop_counterexample :
    setIdsP [some 1, some 1, some 2] = setIdsP [some 1, some 2, some 2] ∧
    get_paginated_data srvDup 3 3 none
      = some ⟨[some 1, some 1, some 2, some 1, some 2, some 2], [(1, 0), (2, 0), (3, 0)]⟩ ∧
    (get_paginated_data srvDup 3 3 none).map PagOut.items ≠ some [some 1, some 1, some 2] := by
  refine ⟨rfl, rfl, ?_⟩
  decide

/-- C7 amended: with at least one retry allowed, pagination is stable in the
fuel (terminates within the 50-page ceiling); from any loop state it stops
fetching as soon as the page ceiling is hit, a page is empty, a page's
sorted id list (with multiplicity) was already seen, or a page is short; and
a server answering page 2 with page 1's sorted id list yields exactly
page 1's items after requests (1,0) and (2,0). -/
theorem pagination_stop_conditions_amended (server : Nat → Nat → PageResp)
    (perPage maxRetries : Nat) (maxPages : Option Nat) (hr : 1 ≤ maxRetries) :
    (∀ f g page acc seen ce reqs, 51 - page < f → 51 - page < g →
       pagLoop server perPage maxRetries maxPages f page acc seen ce reqs
         = pagLoop server perPage maxRetries maxPages g page acc seen ce reqs) ∧
    (∀ f page acc seen ce reqs, 51 - page < f →
       (pagLoop server perPage maxRetries maxPages f page acc seen ce reqs).isSome = true) ∧
    (∀ f page acc seen ce reqs, 50 < page → mpStop maxPages page = false →
       pagLoop server perPage maxRetries maxPages (f + 1) page acc seen ce reqs
         = some ⟨acc, reqs⟩) ∧
    (∀ f page acc seen ce reqs data, mpStop maxPages page = false → page ≤ 50 →
       server page 0 = .ok data → data = [] →
       pagLoop server perPage maxRetries maxPages (f + 1) page acc seen ce reqs
         = some ⟨acc, reqs ++ [(page, 0)]⟩) ∧
    (∀ f page acc seen ce reqs data, mpStop maxPages page = false → page ≤ 50 →
       server page 0 = .ok data → data ≠ [] → sortIdsP data ∈ seen →
       pagLoop server perPage maxRetries maxPages (f + 1) page acc seen ce reqs
         = some ⟨acc, reqs ++ [(page, 0)]⟩) ∧
    (∀ f page acc seen ce reqs data, mpStop maxPages page = false → page ≤ 50 →
       server page 0 = .ok data → data ≠ [] → sortIdsP data ∉ seen → data.length < perPage →
       pagLoop server perPage maxRetries maxPages (f + 1) page acc seen ce reqs
         = some ⟨acc ++ data, reqs ++ [(page, 0)]⟩) ∧
    (∀ p1 p2, maxPages = none → server 1 0 = .ok p1 → server 2 0 = .ok p2 →
       p1.length = perPage → 0 < perPage → sortIdsP p2 = sortIdsP p1 →
       ∀ f, 51 < f → pagLoop server perPage maxRetries maxPages f 1 [] [] 0 []
         = some ⟨p1, [(1, 0), (2, 0)]⟩) := by
  obtain ⟨mr, rfl⟩ : ∃ mr, maxRetries = mr + 1 := ⟨maxRetries - 1, by omega⟩
  refine ⟨?_, ?_, ?_, ?_, ?_, ?_, ?_⟩
  · intro f g page acc seen ce reqs hf hg
    have h1 := (@pagLoop_stable server perPage (mr + 1) maxPages hr)
      (51 - page) page acc seen ce reqs f (Nat.le_refl _) hf
    have h2 := (@pagLoop_stable server perPage (mr + 1) maxPages hr)
      (51 - page) page acc seen ce reqs g (Nat.le_refl _) hg
    rw [h1.1, h2.1]
  · intro f page acc seen ce reqs hf
    have h1 := (@pagLoop_stable server perPage (mr + 1) maxPages hr)
      (51 - page) page acc seen ce reqs f (Nat.le_refl _) hf
    rw [h1.1]
    exact h1.2
  · intro f page acc seen ce reqs hpg hmp
    unfold pagLoop
    rw [if_neg (by simp [hmp]), if_pos hpg]
  · intro f page acc seen ce reqs data hmp hpg hsrv hdata
    subst hdata
    unfold pagLoop
    rw [if_neg (by simp [hmp]), if_neg (by omega)]
    unfold attemptsLoop
    rw [hsrv]
    simp
  · intro f page acc seen ce reqs data hmp hpg hsrv hdata hseen
    unfold pagLoop
    rw [if_neg (by simp [hmp]), if_neg (by omega)]
    unfold attemptsLoop
    rw [hsrv]
    simp [hdata, hseen]
  · intro f page acc seen ce reqs data hmp hpg hsrv hdata hseen hlen
    unfold pagLoop
    rw [if_neg (by simp [hmp]), if_neg (by omega)]
    unfold attemptsLoop
    rw [hsrv]
    simp [hdata, hseen, hlen]
  · intro p1 p2 hmp0 h1 h2 hlen hpp hsort f hf
    subst hmp0
    have hstab := (@pagLoop_stable server perPage (mr + 1) none hr)
      51 1 [] [] 0 [] f (by omega) (by omega)
    rw [hstab.1]
    have hne : p1 ≠ [] := by
      intro h0
      rw [h0] at hlen
      simp at hlen
      omega
    unfold pagLoop
    rw [if_neg (by simp [mpStop]), if_neg (by omega)]
    unfold attemptsLoop
    rw [h1]
    have hnlt : ¬ (p1.length < perPage) := by omega
    simp only [hne, if_neg, List.not_mem_nil, hnlt, if_false]
    simp only [List.nil_append]
    unfold pagLoop
    rw [if_neg (by simp [mpStop]), if_neg (by omega)]
    unfold attemptsLoop
    rw [h2]
    by_cases hp2 : p2 = []
    · simp [hp2]
    · simp [hp2, hsort]

/-- C7 amended witness: a server repeating page 1's id list on page 2 stops
after requesting pages 1 and 2 and returns only page 1's items. -/
theorem pagination_stop_conditions_amended_witness :
    pagLoop srvRep 3 3 none 60 1 [] [] 0 []
      = some ⟨[some 1, some 2, some 3], [(1, 0), (2, 0)]⟩ :=
  (pagination_stop_conditions_amended srvRep 3 3 none (by decide)).2.2.2.2.2.2
    [some 1, some 2, some 3] [some 1, some 2, some 3] rfl rfl rfl rfl (by decide) rfl
    60 (by decide)

/-- C8: from any loop state whose guards pass, a page request failing with
HTTP 401 aborts pagination at once — the request log gains only the single
`(page, 0)` request (no retry of that page, no further pages) and the items
accumulated from the already-fetched pages are returned. -/
theorem pagination_aborts_on_401 (server : Nat → Nat → PageResp)
    (perPage maxRetries : Nat) (maxPages : Option Nat) (f page : Nat) (acc : List PItem)
    (seen : List (List Nat)) (ce : Nat) (reqs : List (Nat × Nat))
    (hr : 1 ≤ maxRetries) (hmp : mpStop maxPages page = false) (hpg : page ≤ 50)
    (h401 : server page 0 = .error (some 401)) :
    pagLoop server perPage maxRetries maxPages (f + 1) page acc seen ce reqs
      = some ⟨acc, reqs ++ [(page, 0)]⟩ := by
  obtain ⟨mr, rfl⟩ : ∃ mr, maxRetries = mr + 1 := ⟨maxRetries - 1, by omega⟩
  unfold pagLoop
  rw [if_neg (by simp [hmp]), if_neg (by omega)]
  unfold attemptsLoop
  rw [h401]
  simp

/-- C8 witness: page 1 fetched, page 2 answers 401; pagination returns the
page-1 items after the single request (2, 0). -/
theorem pagination_aborts_on_401_witness :
    pagLoop srv401 3 3 none 5 2 [some 1, some 2, some 3] [[1, 2, 3]] 0 [(1, 0)]
      = some ⟨[some 1, some 2, some 3], [(1, 0), (2, 0)]⟩ :=
  pagination_aborts_on_401 srv401 3 3 none 4 2 [some 1, some 2, some 3] [[1, 2, 3]] 0
    [(1, 0)] (by decide) rfl (by decide) rfl

/-- C2: when the fetched pre-state already lives in the target parent course
and the pre-call fetches succeed, `cross_list_section` returns true, issues
neither the mutating POST nor the content updater, and writes exactly one
audit record with result success and dry-run false. -/
theorem crossList_idempotent_noop (cfg : Config) (env : CLEnv) (cid pid : Nat)
    (s : SectionRec) (c : CourseRec)
    (h1 : env.sections cid = .ok s) (h2 : s.course_id = some pid)
    (h3 : env.courses (some pid) = .ok c) :
    (cross_list_section cfg env cid pid false).ok = true ∧
    (cross_list_section cfg env cid pid false).posted = false ∧
    (cross_list_section cfg env cid pid false).updaterRan = false ∧
    (cross_list_section cfg env cid pid false).audits.map
      (fun a => (a.result, a.dry_run)) = [(lstr "success", false)] := by
  unfold cross_list_section
  rw [h1]
  dsimp only
  rw [h2, h3]
  simp

/-- C2 witness at the concrete no-op environment. -/
theorem crossList_idempotent_noop_witness :
    (cross_list_section {} envNoopW 42 500 false).ok = true ∧
    (cross_list_section {} envNoopW 42 500 false).posted = false ∧
    (cross_list_section {} envNoopW 42 500 false).updaterRan = false ∧
    (cross_list_section {} envNoopW 42 500 false).audits.map
      (fun a => (a.result, a.dry_run)) = [(lstr "success", false)] :=
  crossList_idempotent_noop {} envNoopW 42 500
    { course_id := some 500, nonxlist_course_id := none }
    { enrollment_term_id := some 9 } rfl rfl rfl

/-- C1 amended: when the fetched pre-state carries an origin course
different from its current course, the target parent differs from the
current course, the course fetches succeed, and the enforce-same-term gate
does not fire (its exact blocking condition — enforcement on, both terms
present and different, no sandbox name — is false), `cross_list_section`
returns false, issues neither the mutating POST nor the updater, and writes
exactly one error audit whose message contains both the origin and the
current course identifiers.  (The code checks the term gate before the
already-merged guard, so the gate passing is required.) -/
theorem crossList_already_merged_guard (cfg : Config) (env : CLEnv) (cid pid : Nat)
    (s : SectionRec) (pc cc : CourseRec) (oc : Nat)
    (h1 : env.sections cid = .ok s) (h2 : s.nonxlist_course_id = some oc)
    (h3 : some oc ≠ s.course_id) (h4 : s.course_id ≠ some pid)
    (h5 : env.courses (some pid) = .ok pc) (h6 : env.courses s.course_id = .ok cc)
    (h7 : ((cfg.enforce_same_term && pc.enrollment_term_id.isSome
        && cc.enrollment_term_id.isSome
        && pc.enrollment_term_id ≠ cc.enrollment_term_id)
        && !(is_sandbox_course_name pc.name || is_sandbox_course_name cc.name)) = false) :
    (cross_list_section cfg env cid pid false).ok = false ∧
    (cross_list_section cfg env cid pid false).posted = false ∧
    (cross_list_section cfg env cid pid false).updaterRan = false ∧
    (cross_list_section cfg env cid pid false).audits.map (fun a => a.result)
      = [lstr "error"] ∧
    ∀ a ∈ (cross_list_section cfg env cid pid false).audits,
      occursB (natLC oc) a.message = true ∧ occursB (optLC s.course_id) a.message = true := by
  have hbeq : (s.course_id == some pid) = false := by
    cases hc : s.course_id == some pid
    · rfl
    · exact absurd (eq_of_beq hc) h4
  unfold cross_list_section
  rw [h1]
  dsimp only
  rw [h5]
  dsimp only
  rw [h6]
  dsimp only
  rw [h2, h7, hbeq]
  simp [h3]
  constructor
  · apply occursB_of_decomp
      (X := lstr "Section " ++ (natLC cid ++ lstr " is already cross-listed (original course "))
      (Z := lstr ", current " ++ (optLC s.course_id ++ lstr ")."))
    simp [optLC, List.append_assoc]
  · apply occursB_of_decomp
      (X := lstr "Section " ++ (natLC cid ++ (lstr " is already cross-listed (original course "
        ++ (optLC (some oc) ++ lstr ", current "))))
      (Z := lstr ").")
    simp [List.append_assoc]

/-- C1 witness: origin course 200, current course 300, target 500. -/
theorem crossList_already_merged_guard_witness :
    (cross_list_section {} envMergedW 42 500 false).ok = false ∧
    (cross_list_section {} envMergedW 42 500 false).posted = false ∧
    (cross_list_section {} envMergedW 42 500 false).updaterRan = false ∧
    (cross_list_section {} envMergedW 42 500 false).audits.map (fun a => a.result)
      = [lstr "error"] ∧
    ∀ a ∈ (cross_list_section {} envMergedW 42 500 false).audits,
      occursB (natLC 200) a.message = true ∧
      occursB (optLC (some 300)) a.message = true :=
  crossList_already_merged_guard {} envMergedW 42 500
    { course_id := some 300, nonxlist_course_id := some 200 }
    { enrollment_term_id := some 9 } { enrollment_term_id := some 9 } 200
    rfl rfl (by decide) (by decide) rfl rfl (by decide)

/-- C9: un-cross-listing a section with no origin course is an idempotent
success without the removal mutation; for a cross-listed section the
operation (after the mutation and the re-fetch both succeed) reports success
exactly when the re-fetched current course equals the pre-call origin or
differs from the pre-call current course. -/
theorem unCrossList_spec :
    (∀ (env : UnEnv) (sid : Nat) (dr : Bool) (s : SectionRec),
      env.sections sid = .ok s → s.nonxlist_course_id = none →
      (un_cross_list_section env sid dr).ok = true ∧
      (un_cross_list_section env sid dr).deleted = false ∧
      (un_cross_list_section env sid dr).audits.map (fun a => a.result)
        = [lstr "success"]) ∧
    (∀ (env : UnEnv) (sid : Nat) (s post : SectionRec) (oc : Nat),
      env.sections sid = .ok s → s.nonxlist_course_id = some oc →
      env.delResp = .ok () → env.postSections sid = .ok post →
      ((un_cross_list_section env sid false).ok = true ↔
        (post.course_id = some oc ∨ post.course_id ≠ s.course_id)) ∧
      (un_cross_list_section env sid false).deleted = true) := by
  constructor
  · intro env sid dr s h1 h2
    unfold un_cross_list_section
    rw [h1]
    dsimp only
    rw [h2]
    simp
  · intro env sid s post oc h1 h2 h3 h4
    unfold un_cross_list_section
    rw [h1]
    dsimp only
    rw [h2, h3]
    dsimp only
    rw [h4]
    dsimp only
    have hc : ((some oc ≠ none && post.course_id == some oc)
        || post.course_id != s.course_id) = true
        ↔ (post.course_id = some oc ∨ post.course_id ≠ s.course_id) := by
      simp
    by_cases hcond : ((some oc ≠ none && post.course_id == some oc)
        || post.course_id != s.course_id) = true
    · rw [if_pos hcond]
      exact ⟨⟨fun _ => hc.mp hcond, fun _ => rfl⟩, rfl⟩
    · rw [if_neg hcond]
      refine ⟨⟨?_, ?_⟩, rfl⟩
      · intro hok
        exact absurd hok (by simp)
      · intro hor
        exact absurd (hc.mpr hor) hcond

/-- C9 witness: part one at a non-cross-listed section, part two at a
removal that reverts the section to its origin course 4. -/
theorem unCrossList_spec_witness :
    ((un_cross_list_section uenvNoopW 7 false).ok = true ∧
     (un_cross_list_section uenvNoopW 7 false).deleted = false ∧
     (un_cross_list_section uenvNoopW 7 false).audits.map (fun a => a.result)
       = [lstr "success"]) ∧
    ((un_cross_list_section uenvRevW 7 false).ok = true ∧
     (un_cross_list_section uenvRevW 7 false).deleted = true) :=
  ⟨unCrossList_spec.1 uenvNoopW 7 false
      { course_id := some 3, nonxlist_course_id := none } rfl rfl,
   ⟨(unCrossList_spec.2 uenvRevW 7 { course_id := some 3, nonxlist_course_id := some 4 }
      { course_id := some 4 } 4 rfl rfl rfl rfl).1.mpr (Or.inl rfl),
    (unCrossList_spec.2 uenvRevW 7 { course_id := some 3, nonxlist_course_id := some 4 }
      { course_id := some 4 } 4 rfl rfl rfl rfl).2⟩⟩

/-- C10: a sandbox-named parent or child course downgrades an
enrollment-term mismatch to a warning even under `enforce_same_term`: with
the other guards passing and dry-run off, the mutating POST is issued and
the single audit record carries the term-mismatch warning string. -/
theorem sandbox_term_mismatch_warns_and_proceeds (cfg : Config) (env : CLEnv)
    (cid pid : Nat) (s : SectionRec) (pc cc : CourseRec) (a b : Nat)
    (h1 : env.sections cid = .ok s)
    (h2 : s.nonxlist_course_id = none)
    (h3 : s.course_id ≠ some pid)
    (h4 : env.courses (some pid) = .ok pc) (h5 : env.courses s.course_id = .ok cc)
    (h6 : cfg.enforce_same_term = true)
    (h7 : pc.enrollment_term_id = some a) (h8 : cc.enrollment_term_id = some b)
    (h9 : a ≠ b)
    (h10 : (is_sandbox_course_name pc.name || is_sandbox_course_name cc.name) = true) :
    (cross_list_section cfg env cid pid false).posted = true ∧
    (cross_list_section cfg env cid pid false).audits.length = 1 ∧
    ∀ rec ∈ (cross_list_section cfg env cid pid false).audits,
      ∃ ws, rec.sop_warnings = some ws ∧
        (lstr "Warning: Term mismatch (parent term " ++ natLC a ++
         lstr " vs child term " ++ natLC b ++ lstr ")") ∈ ws := by
  have hbeq : (s.course_id == some pid) = false := by
    cases hc : s.course_id == some pid
    · rfl
    · exact absurd (eq_of_beq hc) h3
  unfold cross_list_section
  rw [h1]
  dsimp only
  rw [h4]
  dsimp only
  rw [h5]
  dsimp only
  rw [h2, h6, h7, h8, h10, hbeq]
  simp [h9]
  split
  · refine ⟨rfl, rfl, ?_⟩
    intro rec hrec
    rcases List.mem_singleton.mp hrec with rfl
    exact ⟨_, rfl, List.mem_cons_self _ _⟩
  · split
    · refine ⟨rfl, rfl, ?_⟩
      intro rec hrec
      rcases List.mem_singleton.mp hrec with rfl
      exact ⟨_, rfl, List.mem_cons_self _ _⟩
    · split
      · split
        · refine ⟨rfl, rfl, ?_⟩
          intro rec hrec
          rcases List.mem_singleton.mp hrec with rfl
          exact ⟨_, rfl, List.mem_cons_self _ _⟩
        · refine ⟨rfl, rfl, ?_⟩
          intro rec hrec
          rcases List.mem_singleton.mp hrec with rfl
          exact ⟨_, rfl, List.mem_cons_self _ _⟩
      · refine ⟨rfl, rfl, ?_⟩
        intro rec hrec
        rcases List.mem_singleton.mp hrec with rfl
        exact ⟨_, rfl, List.mem_cons_self _ _⟩

/-- C10 witness: sandbox-named parent (term 9) and child course (term 8). -/
theorem sandbox_term_mismatch_warns_and_proceeds_witness :
    (cross_list_section {} envSandboxW 42 500 false).posted = true ∧
    (cross_list_section {} envSandboxW 42 500 false).audits.length = 1 ∧
    ∀ rec ∈ (cross_list_section {} envSandboxW 42 500 false).audits,
      ∃ ws, rec.sop_warnings = some ws ∧
        (lstr "Warning: Term mismatch (parent term " ++ natLC 9 ++
         lstr " vs child term " ++ natLC 8 ++ lstr ")") ∈ ws :=
  sandbox_term_mismatch_warns_and_proceeds {} envSandboxW 42 500
    { course_id := some 300, nonxlist_course_id := none }
    { enrollment_term_id := some 9, name := some (lstr "Sandbox Course 12 for user1") }
    { enrollment_term_id := some 8 } 9 8
    rfl rfl (by decide) rfl rfl rfl rfl rfl (by decide) (by decide)

/-- C1 counterexample: the same already-merged pre-state (origin 200,
current 300, target 500) with mismatching course terms is blocked by the
term gate first — the call still returns false without mutating, but the
single error audit's message names the terms, not the two course
identifiers, contradicting the claim as stated. -/
theorem crossList_already_merged_term_counterexample :
    (cross_list_section {} envMergedTermW 42 500 false).ok = false ∧
    (cross_list_section {} envMergedTermW 42 500 false).audits.map (fun a => a.result)
      = [lstr "error"] ∧
    ∀ a ∈ (cross_list_section {} envMergedTermW 42 500 false).audits,
      occursB (natLC 200) a.message = false := by
  refine ⟨rfl, rfl, ?_⟩
  intro a ha
  rcases List.mem_singleton.mp (by exact ha) with rfl
  decide
